import Mathlib

/-!
MrCaiDev/SDL: collision tests, constrained movement, stopwatch and frame pacing.

A shallow embedding of `include/collision.h`, `include/timer.h`,
`include/FPS.h` and the cutting, movement and camera parts of
`include/texture.h`, followed by the properties proved about them.

Conventions of the embedding.

* `SDL_Rect` and `SDL_Point` fields, anchors and velocities are C `int`s that
  the code only adds, subtracts and compares as signed values.  Signed
  overflow has no defined result in C++, so these computations are carried
  out in exact integers (`Int`).
* `SDL_GetTicks()` yields an unsigned 32-bit millisecond counter which the
  timer stores into `int` fields and subtracts in unsigned arithmetic.  That
  arithmetic is defined (modulo `2^32`) and is modelled explicitly by
  `toInt32`.  The clock reading is an explicit argument `now`, one argument
  for each call of `SDL_GetTicks()` that an operation makes.
* `/` on `int` is the truncating division `Int.tdiv`; a division by zero has
  no defined result and is `none`.
* `std::vector` is `List`; a loop with an early `return` is a recursion that
  stops at the first hit; an out-of-range `delta[i]` is `none`.
-/

namespace SDL

/-! ## Definitions -/

/-- The SDL rectangle: top-left corner, width and height. -/
structure SDL_Rect where
  x : Int
  y : Int
  w : Int
  h : Int
  deriving DecidableEq, Repr

/-- The SDL point. -/
structure SDL_Point where
  x : Int
  y : Int
  deriving DecidableEq, Repr

/-- `OutsideCollided(SDL_Rect, SDL_Rect)`, `collision.h` lines 34-40. -/
def OutsideCollided (rect1 rect2 : SDL_Rect) : Bool :=
  if rect1.x + rect1.w ≤ rect2.x || rect2.x + rect2.w ≤ rect1.x
      || rect1.y + rect1.h ≤ rect2.y || rect2.y + rect2.h ≤ rect1.y then
    false
  else
    true

/-- `InsideCollided(SDL_Rect, SDL_Rect)`, `collision.h` lines 79-87. -/
def InsideCollided (rect1 rect2 : SDL_Rect) : Bool :=
  if rect1.x ≥ rect2.x && rect1.x + rect1.w ≤ rect2.x + rect2.w
      && rect1.y ≥ rect2.y && rect1.y + rect1.h ≤ rect2.y + rect2.h then
    false
  else if rect2.x ≥ rect1.x && rect2.x + rect2.w ≤ rect1.x + rect1.w
      && rect2.y ≥ rect1.y && rect2.y + rect2.h ≤ rect1.y + rect1.h then
    false
  else
    true

/-- `InsideCollided(std::vector<SDL_Rect>, SDL_Rect)`, `collision.h` lines
95-103: scan `A` from the front and return at the first violating box. -/
def InsideCollidedVec : List SDL_Rect → SDL_Rect → Bool
  | [], _ => false
  | a :: rest, rect => if InsideCollided a rect then true else InsideCollidedVec rest rect

/-- Containment of `r1` in `r2` as the specification words it (not a source
function): used to state properties of `InsideCollided`. -/
def Contained (r1 r2 : SDL_Rect) : Prop :=
  r1.x ≥ r2.x ∧ r1.x + r1.w ≤ r2.x + r2.w ∧ r1.y ≥ r2.y ∧ r1.y + r1.h ≤ r2.y + r2.h

instance (r1 r2 : SDL_Rect) : Decidable (Contained r1 r2) := by
  unfold Contained; infer_instance

/-- The part of `Texture` the movement code reads: the texture size
(`texture.h` lines 16, 38-44).  The renderer and texture handles play no part
in the arithmetic. -/
structure Texture where
  w : Int
  h : Int
  deriving DecidableEq, Repr

/-- The data members of `MovableTexture`, `texture.h` lines 282-290. -/
structure MovableTexture extends Texture where
  x : Int
  y : Int
  range : SDL_Rect
  boxes : List SDL_Rect
  delta : List SDL_Point
  velocity_x : Int
  velocity_y : Int
  deriving DecidableEq, Repr

/-- `MovableTexture::MovableTexture()`, `texture.h` lines 305-311 (with
`Texture::Texture()`, lines 38-44).  The constructor does not initialise
`range`; its indeterminate content is the argument `range0`. -/
def MovableTexture.new (range0 : SDL_Rect) : MovableTexture :=
  { w := 0, h := 0, x := 0, y := 0, range := range0, boxes := [], delta := [],
    velocity_x := 0, velocity_y := 0 }

/-- `MovableTexture::CreateFromTexture`, `texture.h` lines 334-346.  The
`texture` argument is not used by the body; each input box appends one offset
to `delta` and one absolute rectangle to `boxes`. -/
def MovableTexture.CreateFromTexture (s : MovableTexture) (_texture : Texture)
    (point : SDL_Point) (range : SDL_Rect) (boxes : List SDL_Rect) : MovableTexture :=
  { s with
    x := point.x
    y := point.y
    range := range
    delta := s.delta ++ boxes.map (fun b => { x := b.x, y := b.y })
    boxes := s.boxes ++ boxes.map
      (fun b => { x := point.x + b.x, y := point.y + b.y, w := b.w, h := b.h }) }

/-- The loop of `MovableTexture::MoveBoxes`, `texture.h` lines 353-357: the
`i`-th box takes the position `(x + delta[i].x, y + delta[i].y)` and keeps its
size.  Reading `delta[i]` past the end of `delta` has no defined behaviour:
`none`. -/
def moveBoxesLoop (x y : Int) : List SDL_Rect → List SDL_Point → Option (List SDL_Rect)
  | [], _ => some []
  | _ :: _, [] => none
  | b :: bs, d :: ds =>
    (moveBoxesLoop x y bs ds).map (fun rest => { b with x := x + d.x, y := y + d.y } :: rest)

/-- `MovableTexture::MoveBoxes`, `texture.h` lines 351-358. -/
def MovableTexture.MoveBoxes (s : MovableTexture) : Option MovableTexture :=
  (moveBoxesLoop s.x s.y s.boxes s.delta).map (fun bs => { s with boxes := bs })

/-- The X phase of `MovableTexture::Move`, `texture.h` lines 409-416. -/
def MovableTexture.MoveX (s : MovableTexture) : Option MovableTexture :=
  (MovableTexture.MoveBoxes { s with x := s.x + s.velocity_x }).bind fun s1 =>
    if InsideCollidedVec s1.boxes s1.range then
      MovableTexture.MoveBoxes { s1 with x := s1.x - s1.velocity_x }
    else
      some s1

/-- The Y phase of `MovableTexture::Move`, `texture.h` lines 417-424. -/
def MovableTexture.MoveY (s : MovableTexture) : Option MovableTexture :=
  (MovableTexture.MoveBoxes { s with y := s.y + s.velocity_y }).bind fun s1 =>
    if InsideCollidedVec s1.boxes s1.range then
      MovableTexture.MoveBoxes { s1 with y := s1.y - s1.velocity_y }
    else
      some s1

/-- `MovableTexture::Move`, `texture.h` lines 407-425: the X phase, then the Y
phase on the state the X phase left. -/
def MovableTexture.Move (s : MovableTexture) : Option MovableTexture :=
  (MovableTexture.MoveX s).bind MovableTexture.MoveY

/-- Every box sits at the anchor plus its stored offset (in particular there
are as many offsets as boxes). -/
def Attached (s : MovableTexture) : Prop :=
  List.Forall₂ (fun (b : SDL_Rect) (d : SDL_Point) => b.x = s.x + d.x ∧ b.y = s.y + d.y)
    s.boxes s.delta

instance (s : MovableTexture) : Decidable (Attached s) := by
  unfold Attached; infer_instance

/-- Conversion of an integer to the C `int` with the same residue modulo
`2^32`: the value an `int` holds after being assigned an unsigned 32-bit
result. -/
def toInt32 (z : Int) : Int :=
  (z + 2147483648) % 4294967296 - 2147483648

/-- The data members of `Timer`, `timer.h` lines 8-16. -/
structure Timer where
  started : Bool
  paused : Bool
  TicksPlaying : Int
  TicksNotPlaying : Int
  deriving DecidableEq, Repr

/-- `Timer::Timer()`, `timer.h` lines 33-39. -/
def Timer.new : Timer :=
  { TicksPlaying := 0, TicksNotPlaying := 0, started := false, paused := true }

/-- `Timer::Start`, `timer.h` lines 52-60; `now` is what `SDL_GetTicks()`
returns. -/
def Timer.Start (s : Timer) (now : Int) : Timer :=
  if !s.started then
    { s with started := true, paused := false, TicksNotPlaying := toInt32 now }
  else s

/-- `Timer::Stop`, `timer.h` lines 65-74. -/
def Timer.Stop (s : Timer) (now : Int) : Timer :=
  if s.started then
    { s with
      started := false
      TicksPlaying := if !s.paused then toInt32 (now - s.TicksNotPlaying) else s.TicksPlaying
      paused := true }
  else s

/-- `Timer::Pause`, `timer.h` lines 79-86. -/
def Timer.Pause (s : Timer) (now : Int) : Timer :=
  if s.started && !s.paused then
    { s with paused := true, TicksPlaying := toInt32 (now - s.TicksNotPlaying) }
  else s

/-- `Timer::Resume`, `timer.h` lines 91-98. -/
def Timer.Resume (s : Timer) (now : Int) : Timer :=
  if s.started && s.paused then
    { s with paused := false, TicksNotPlaying := toInt32 (now - s.TicksPlaying) }
  else s

/-- `Timer::Reset`, `timer.h` lines 103-109. -/
def Timer.Reset (_s : Timer) : Timer :=
  { started := false, paused := true, TicksPlaying := 0, TicksNotPlaying := 0 }

/-- `Timer::GetTime`, `timer.h` lines 115-120. -/
def Timer.GetTime (s : Timer) (now : Int) : Int :=
  if s.started && !s.paused then toInt32 (now - s.TicksNotPlaying) else s.TicksPlaying

/-- The half-open intervals of two rectangles meet on both axes, as the
specification words the overlap test (not a source function): some integer
`px` lies in `[r1.x, r1.x + r1.w)` and in `[r2.x, r2.x + r2.w)`, and some
integer `py` lies in `[r1.y, r1.y + r1.h)` and in `[r2.y, r2.y + r2.h)`. -/
def IntervalsMeet (r1 r2 : SDL_Rect) : Prop :=
  (∃ px : Int, r1.x ≤ px ∧ px < r1.x + r1.w ∧ r2.x ≤ px ∧ px < r2.x + r2.w) ∧
  (∃ py : Int, r1.y ≤ py ∧ py < r1.y + r1.h ∧ r2.y ≤ py ∧ py < r2.y + r2.h)

/-- An entity as a game holds it: texture 100 x 100, anchor `(1,1)`, region
`{0,0,10,10}`, two boxes at offsets `(0,0)` and `(1,1)`, velocity `(3,20)`. -/
def insideState : MovableTexture :=
  { w := 100, h := 100, x := 1, y := 1, range := ⟨0, 0, 10, 10⟩,
    boxes := [⟨1, 1, 3, 3⟩, ⟨2, 2, 2, 2⟩], delta := [⟨0, 0⟩, ⟨1, 1⟩],
    velocity_x := 3, velocity_y := 20 }

/-- The state left by `CreateFromTexture` at `(5,5)` with the box `{0,0,1,1}`
followed by `CreateFromTexture` at `(0,0)` with no further box, on a 100 x 100
texture moving right at `100 / 10`: the anchor is `(0,0)` while the box still
sits at `(5,5)`. -/
def detachedState : MovableTexture :=
  { ((({ MovableTexture.new ⟨0, 0, 0, 0⟩ with w := 100, h := 100 }).CreateFromTexture
        ⟨100, 100⟩ ⟨5, 5⟩ ⟨0, 0, 10, 10⟩ [⟨0, 0, 1, 1⟩]).CreateFromTexture
        ⟨100, 100⟩ ⟨0, 0⟩ ⟨0, 0, 10, 10⟩ []) with
    velocity_x := 10 }

/-- An attached entity against the right wall: anchor `(1,1)`, region
`{0,0,10,10}`, one box at offset `(0,0)`, velocity `(20,3)`. -/
def slidingState : MovableTexture :=
  { w := 200, h := 30, x := 1, y := 1, range := ⟨0, 0, 10, 10⟩,
    boxes := [⟨1, 1, 3, 3⟩], delta := [⟨0, 0⟩], velocity_x := 20, velocity_y := 3 }

/-- Conversion of an integer to the unsigned 32-bit value with the same
residue modulo `2^32`: what `SDL_Delay(Uint32)` receives when it is passed an
`int`. -/
def toUint32 (z : Int) : Int :=
  z % 4294967296

/-- The data members of `FPSmonitor`, `FPS.h` lines 8-15. -/
structure FPSmonitor where
  oneframe : Timer
  update : Timer
  control : Bool
  TargetFPS : Int
  RealFPS : Int
  deriving DecidableEq, Repr

/-- `FPSmonitor::FPSmonitor()`, `FPS.h` lines 30-35; the two timers are
default-constructed. -/
def FPSmonitor.new : FPSmonitor :=
  { oneframe := Timer.new, update := Timer.new, control := true, TargetFPS := 0, RealFPS := 0 }

/-- `FPSmonitor::StartOneFrame`, `FPS.h` lines 61-65.  Each `Start()` reads the
clock once: `now1` for `oneframe`, `now2` for `update`. -/
def FPSmonitor.StartOneFrame (s : FPSmonitor) (now1 now2 : Int) : FPSmonitor :=
  { s with oneframe := s.oneframe.Start now1, update := s.update.Start now2 }

/-- `FPSmonitor::EndOneFrame`, `FPS.h` lines 70-80.  `now1` is the clock read
by `update.GetTime()`, `now2` the clock read by `oneframe.GetTime()`.  The
quotient `1000 / oneframe.GetTime()` is the truncating `int` division of C++;
with a zero divisor it has no defined result: `none`. -/
def FPSmonitor.EndOneFrame (s : FPSmonitor) (now1 now2 : Int) : Option FPSmonitor :=
  if s.update.GetTime now1 ≥ 100 then
    if s.oneframe.GetTime now2 = 0 then
      none
    else
      some { s with
        RealFPS := Int.tdiv 1000 (s.oneframe.GetTime now2)
        update := s.update.Reset
        oneframe := s.oneframe.Reset }
  else
    some { s with oneframe := s.oneframe.Reset }

/-- `FPSmonitor::Control`, `FPS.h` lines 85-90.  `now1` is the clock read by
the `GetTime()` of the test (not read at all when `control` is false), `now2`
the clock read by the `GetTime()` of the argument.  The result is `none` when
`1000 / TargetFPS` divides by zero, `some none` when `SDL_Delay` is not called
and `some (some d)` when `SDL_Delay(d)` is called. -/
def FPSmonitor.Control (s : FPSmonitor) (now1 now2 : Int) : Option (Option Int) :=
  if s.control && decide (s.oneframe.GetTime now1 * s.TargetFPS < 1000) then
    if s.TargetFPS = 0 then
      none
    else
      some (some (toUint32 (Int.tdiv 1000 s.TargetFPS - s.oneframe.GetTime now2)))
  else
    some none

/-- `FPSmonitor::ChangeControllingState`, `FPS.h` lines 95-98. -/
def FPSmonitor.ChangeControllingState (s : FPSmonitor) : FPSmonitor :=
  { s with control := !s.control }

/-- `FPSmonitor::GetFPS`, `FPS.h` lines 104-107. -/
def FPSmonitor.GetFPS (s : FPSmonitor) : Int :=
  s.RealFPS

/-- The event type `SDL_KEYDOWN` of SDL2 (`0x300`); the SDL headers are not
part of the repository. -/
def SDL_KEYDOWN : Int := 768

/-- The event type `SDL_KEYUP` of SDL2 (`0x301`). -/
def SDL_KEYUP : Int := 769

/-- The key code `SDLK_w` of SDL2 (the character `w`). -/
def SDLK_w : Int := 119

/-- The key code `SDLK_s` of SDL2 (the character `s`). -/
def SDLK_s : Int := 115

/-- The key code `SDLK_a` of SDL2 (the character `a`). -/
def SDLK_a : Int := 97

/-- The key code `SDLK_d` of SDL2 (the character `d`). -/
def SDLK_d : Int := 100

/-- The fields of `SDL_Event` that `HandleEvent` reads: `event.type`,
`event.key.repeat` and `event.key.keysym.sym`. -/
structure SDL_Event where
  type : Int
  key_repeat : Int
  sym : Int
  deriving DecidableEq, Repr

/-- `MovableTexture::HandleEvent`, `texture.h` lines 364-402.  The steps
`w / 10` and `h / 10` are truncating `int` divisions; a `switch` without a
matching `case` does nothing. -/
def MovableTexture.HandleEvent (s : MovableTexture) (event : SDL_Event) : MovableTexture :=
  let vx := Int.tdiv s.w 10
  let vy := Int.tdiv s.h 10
  if event.type = SDL_KEYDOWN ∧ event.key_repeat = 0 then
    if event.sym = SDLK_w then { s with velocity_y := s.velocity_y - vy }
    else if event.sym = SDLK_s then { s with velocity_y := s.velocity_y + vy }
    else if event.sym = SDLK_a then { s with velocity_x := s.velocity_x - vx }
    else if event.sym = SDLK_d then { s with velocity_x := s.velocity_x + vx }
    else s
  else if event.type = SDL_KEYUP ∧ event.key_repeat = 0 then
    if event.sym = SDLK_w then { s with velocity_y := s.velocity_y + vy }
    else if event.sym = SDLK_s then { s with velocity_y := s.velocity_y - vy }
    else if event.sym = SDLK_a then { s with velocity_x := s.velocity_x + vx }
    else if event.sym = SDLK_d then { s with velocity_x := s.velocity_x - vx }
    else s
  else s

/-- `MovableTexture::CameraFollow`, `texture.h` lines 431-445: the camera
passed by reference is returned.  `w / 2` and `camera.w / 2` are truncating
`int` divisions. -/
def MovableTexture.CameraFollow (s : MovableTexture) (camera : SDL_Rect) : SDL_Rect :=
  let cx := s.x + Int.tdiv s.w 2 - Int.tdiv camera.w 2
  let camera1 : SDL_Rect :=
    if cx < 0 then { camera with x := 0 }
    else if cx + camera.w > s.range.x + s.range.w then
      { camera with x := s.range.x + s.range.w - camera.w }
    else { camera with x := cx }
  let cy := s.y + Int.tdiv s.h 2 - Int.tdiv camera1.h 2
  if cy < 0 then { camera1 with y := 0 }
  else if cy + camera1.h > s.range.y + s.range.h then
    { camera1 with y := s.range.y + s.range.h - camera1.h }
  else { camera1 with y := cy }

/-- An entity created at `(100,100)` in the region `{100,100,1000,1000}`,
which does not start at the origin: the state after the constructor and
`CreateFromTexture` with one box `{0,0,10,10}`. -/
def offsetRegionState : MovableTexture :=
  (MovableTexture.new ⟨0, 0, 0, 0⟩).CreateFromTexture ⟨64, 64⟩ ⟨100, 100⟩
    ⟨100, 100, 1000, 1000⟩ [⟨0, 0, 10, 10⟩]

/-- An entity created at `(70,10)` in the small region `{0,0,100,100}`: the
state after the constructor and `CreateFromTexture` with one box
`{0,0,10,10}`. -/
def smallRegionState : MovableTexture :=
  (MovableTexture.new ⟨0, 0, 0, 0⟩).CreateFromTexture ⟨64, 64⟩ ⟨70, 10⟩
    ⟨0, 0, 100, 100⟩ [⟨0, 0, 10, 10⟩]

/-- One call on a `Timer`, with the clock reading it gets from
`SDL_GetTicks()`; `Reset` does not read the clock. -/
inductive TimerOp where
  | Start (now : Int)
  | Stop (now : Int)
  | Pause (now : Int)
  | Resume (now : Int)
  | Reset
  deriving DecidableEq, Repr

/-- The clock reading of a call, if it reads the clock. -/
def TimerOp.time : TimerOp → Option Int
  | .Start now => some now
  | .Stop now => some now
  | .Pause now => some now
  | .Resume now => some now
  | .Reset => none

/-- The effect of one call on a `Timer`. -/
def Timer.apply (s : Timer) : TimerOp → Timer
  | .Start now => s.Start now
  | .Stop now => s.Stop now
  | .Pause now => s.Pause now
  | .Resume now => s.Resume now
  | .Reset => s.Reset

/-- The effect of a sequence of calls, first call first. -/
def Timer.run (s : Timer) (ops : List TimerOp) : Timer :=
  ops.foldl Timer.apply s

/-- One call on a `MovableTexture` after its creation: `Move()` or
`HandleEvent(event)`. -/
inductive EntityOp where
  | Move
  | HandleEvent (event : SDL_Event)
  deriving DecidableEq, Repr

/-- The effect of one call on a `MovableTexture`. -/
def MovableTexture.apply (s : MovableTexture) : EntityOp → Option MovableTexture
  | .Move => s.Move
  | .HandleEvent event => some (s.HandleEvent event)

/-- The effect of a sequence of calls, first call first. -/
def MovableTexture.run (s : MovableTexture) : List EntityOp → Option MovableTexture
  | [] => some s
  | op :: rest => (s.apply op).bind fun s1 => s1.run rest

/-- `Texture::Cut`, `texture.h` lines 181-201.  `w / n` and `h / m` are
truncating `int` divisions, without a result for a zero divisor; the vector is
created with `m * n` value-initialised rectangles, which cannot be done for a
negative number; the two loops then write the clip `clips[row * n + column]`
for `row = 0 .. m-1` and `column = 0 .. n-1`. -/
def Texture.Cut (t : Texture) (m n : Int) : Option (List SDL_Rect) :=
  if n = 0 ∨ m = 0 then none
  else
    let single_w := Int.tdiv t.w n
    let single_h := Int.tdiv t.h m
    let number := m * n
    if number < 0 then none
    else
      some ((List.range m.toNat).foldl
        (fun (clips : List SDL_Rect) (row : Nat) =>
          (List.range n.toNat).foldl
            (fun (clips : List SDL_Rect) (column : Nat) =>
              clips.set ((row : Int) * n + (column : Int)).toNat
                { x := (column : Int) * single_w, y := (row : Int) * single_h,
                  w := single_w, h := single_h })
            clips)
        (List.replicate number.toNat { x := 0, y := 0, w := 0, h := 0 }))

/-! ## Pairwise tests -/

theorem InsideCollided_eq_false_iff (r1 r2 : SDL_Rect) :
    InsideCollided r1 r2 = false ↔ Contained r1 r2 ∨ Contained r2 r1 := by
  unfold InsideCollided Contained
  by_cases h1 : r1.x ≥ r2.x ∧ r1.x + r1.w ≤ r2.x + r2.w ∧ r1.y ≥ r2.y ∧ r1.y + r1.h ≤ r2.y + r2.h
  · simp [h1]
  · by_cases h2 : r2.x ≥ r1.x ∧ r2.x + r2.w ≤ r1.x + r1.w ∧ r2.y ≥ r1.y ∧ r2.y + r2.h ≤ r1.y + r1.h
    · simp [h2]
    · simp only [ge_iff_le, Bool.and_eq_true, decide_eq_true_eq, and_assoc] at h1 h2 ⊢
      simp [h1, h2]

theorem OutsideCollided_eq_true_iff (r1 r2 : SDL_Rect) :
    OutsideCollided r1 r2 = true ↔
      r2.x < r1.x + r1.w ∧ r1.x < r2.x + r2.w ∧ r2.y < r1.y + r1.h ∧ r1.y < r2.y + r2.h := by
  unfold OutsideCollided
  simp only [Bool.or_eq_true, decide_eq_true_eq, or_assoc]
  constructor
  · intro h
    split at h
    · exact absurd h (by simp)
    · omega
  · intro h
    rw [if_neg (by omega)]

theorem OutsideCollided_eq_false_iff (r1 r2 : SDL_Rect) :
    OutsideCollided r1 r2 = false ↔
      (r1.x + r1.w ≤ r2.x ∨ r2.x + r2.w ≤ r1.x ∨ r1.y + r1.h ≤ r2.y ∨ r2.y + r2.h ≤ r1.y) := by
  have h := OutsideCollided_eq_true_iff r1 r2
  cases hc : OutsideCollided r1 r2
  · simp only [hc, Bool.false_eq_true, false_iff, true_iff] at h ⊢
    omega
  · simp only [hc, true_iff, Bool.true_eq_false, false_iff] at h ⊢
    omega

theorem InsideCollided_eq_true_iff (r1 r2 : SDL_Rect) :
    InsideCollided r1 r2 = true ↔ ¬ Contained r1 r2 ∧ ¬ Contained r2 r1 := by
  have h := InsideCollided_eq_false_iff r1 r2
  cases hc : InsideCollided r1 r2
  · simp only [hc, true_iff, Bool.false_eq_true, false_iff] at h ⊢
    tauto
  · simp only [hc, Bool.true_eq_false, false_iff, true_iff] at h ⊢
    tauto

/-- C3: `InsideCollided(rect1, rect2)` is true if and only if neither
rectangle is contained in the other; in particular it is false whenever
`rect1` fits entirely inside `rect2`. -/
theorem InsideCollided_iff_neither_contained (r1 r2 : SDL_Rect) :
    (InsideCollided r1 r2 = true ↔ ¬ Contained r1 r2 ∧ ¬ Contained r2 r1) ∧
    (Contained r1 r2 → InsideCollided r1 r2 = false) :=
  ⟨InsideCollided_eq_true_iff r1 r2,
   fun h => (InsideCollided_eq_false_iff r1 r2).2 (Or.inl h)⟩

/-- C3 at `{2,2,3,3}` inside `{0,0,10,10}`: contained, hence not violating. -/
theorem InsideCollided_iff_neither_contained_witness :
    Contained ⟨2, 2, 3, 3⟩ ⟨0, 0, 10, 10⟩ ∧
    InsideCollided ⟨2, 2, 3, 3⟩ ⟨0, 0, 10, 10⟩ = false :=
  ⟨by decide, (InsideCollided_iff_neither_contained ⟨2, 2, 3, 3⟩ ⟨0, 0, 10, 10⟩).2 (by decide)⟩

/-- C4 as stated fails: the zero-width rectangle `{0,2,0,5}` on the left edge
of `{0,0,10,10}` has width and height `≥ 0`, does not overlap it according to
`OutsideCollided`, and is not a containment violation either. -/
theorem disjoint_violates_counterexample :
    (0 : Int) ≤ (⟨0, 2, 0, 5⟩ : SDL_Rect).w ∧ (0 : Int) ≤ (⟨0, 2, 0, 5⟩ : SDL_Rect).h ∧
    (0 : Int) ≤ (⟨0, 0, 10, 10⟩ : SDL_Rect).w ∧ (0 : Int) ≤ (⟨0, 0, 10, 10⟩ : SDL_Rect).h ∧
    OutsideCollided ⟨0, 2, 0, 5⟩ ⟨0, 0, 10, 10⟩ = false ∧
    InsideCollided ⟨0, 2, 0, 5⟩ ⟨0, 0, 10, 10⟩ = false := by
  decide

/-- C4 (amended): for rectangles of positive width and height, if
`OutsideCollided(r1, r2)` is false then `InsideCollided(r1, r2)` is true. -/
theorem disjoint_violates_of_pos (r1 r2 : SDL_Rect)
    (hw1 : 0 < r1.w) (hh1 : 0 < r1.h) (hw2 : 0 < r2.w) (hh2 : 0 < r2.h)
    (hout : OutsideCollided r1 r2 = false) : InsideCollided r1 r2 = true := by
  rw [OutsideCollided_eq_false_iff] at hout
  rw [InsideCollided_eq_true_iff]
  unfold Contained
  omega

/-- C4 (amended) at the disjoint pair `{0,0,5,5}`, `{100,100,5,5}`. -/
theorem disjoint_violates_of_pos_witness :
    OutsideCollided ⟨0, 0, 5, 5⟩ ⟨100, 100, 5, 5⟩ = false ∧
    InsideCollided ⟨0, 0, 5, 5⟩ ⟨100, 100, 5, 5⟩ = true :=
  ⟨by decide,
   disjoint_violates_of_pos ⟨0, 0, 5, 5⟩ ⟨100, 100, 5, 5⟩
     (by decide) (by decide) (by decide) (by decide) (by decide)⟩

/-- C5 as stated fails: the empty rectangle `{5,5,0,0}` inside `{0,0,10,10}`
has width and height `≥ 0` and `OutsideCollided` reports an overlap, although
the half-open interval `[5, 5)` holds no integer. -/
theorem OutsideCollided_intervals_counterexample :
    (0 : Int) ≤ (⟨5, 5, 0, 0⟩ : SDL_Rect).w ∧ (0 : Int) ≤ (⟨5, 5, 0, 0⟩ : SDL_Rect).h ∧
    (0 : Int) ≤ (⟨0, 0, 10, 10⟩ : SDL_Rect).w ∧ (0 : Int) ≤ (⟨0, 0, 10, 10⟩ : SDL_Rect).h ∧
    OutsideCollided ⟨5, 5, 0, 0⟩ ⟨0, 0, 10, 10⟩ = true ∧
    ¬ IntervalsMeet ⟨5, 5, 0, 0⟩ ⟨0, 0, 10, 10⟩ := by
  refine ⟨by decide, by decide, by decide, by decide, by decide, ?_⟩
  rintro ⟨⟨px, h1, h2, -, -⟩, -⟩
  dsimp only at h1 h2
  omega

/-- C5 (amended): for rectangles of positive width and height,
`OutsideCollided(r1, r2)` is true exactly when the half-open intervals of the
two rectangles meet on both axes. -/
theorem OutsideCollided_iff_intervals_of_pos (r1 r2 : SDL_Rect)
    (hw1 : 0 < r1.w) (hh1 : 0 < r1.h) (hw2 : 0 < r2.w) (hh2 : 0 < r2.h) :
    OutsideCollided r1 r2 = true ↔ IntervalsMeet r1 r2 := by
  rw [OutsideCollided_eq_true_iff]
  unfold IntervalsMeet
  constructor
  · rintro ⟨h1, h2, h3, h4⟩
    refine ⟨⟨max r1.x r2.x, ?_, ?_, ?_, ?_⟩, ⟨max r1.y r2.y, ?_, ?_, ?_, ?_⟩⟩ <;> omega
  · rintro ⟨⟨px, a1, a2, a3, a4⟩, ⟨py, b1, b2, b3, b4⟩⟩
    omega

/-- C5 (amended) at `{0,0,10,10}` and `{5,5,10,10}`, which share the cell
`(5,5)`. -/
theorem OutsideCollided_iff_intervals_of_pos_witness :
    (OutsideCollided ⟨0, 0, 10, 10⟩ ⟨5, 5, 10, 10⟩ = true ↔
      IntervalsMeet ⟨0, 0, 10, 10⟩ ⟨5, 5, 10, 10⟩) :=
  OutsideCollided_iff_intervals_of_pos ⟨0, 0, 10, 10⟩ ⟨5, 5, 10, 10⟩
    (by decide) (by decide) (by decide) (by decide)

/-- C6: overlap symmetry, `OutsideCollided(a, b) = OutsideCollided(b, a)` for
all rectangles. -/
theorem OutsideCollided_comm (a b : SDL_Rect) : OutsideCollided a b = OutsideCollided b a := by
  rw [Bool.eq_iff_iff, OutsideCollided_eq_true_iff, OutsideCollided_eq_true_iff]
  omega

/-- C7: touching is not overlapping.  When the far edge of one rectangle
coincides with the near edge of the other on some axis, `OutsideCollided` is
false. -/
theorem OutsideCollided_touching (r1 r2 : SDL_Rect)
    (h : r1.x + r1.w = r2.x ∨ r2.x + r2.w = r1.x ∨ r1.y + r1.h = r2.y ∨ r2.y + r2.h = r1.y) :
    OutsideCollided r1 r2 = false := by
  rw [OutsideCollided_eq_false_iff]
  omega

/-- C7 at `{0,0,10,10}` and `{10,0,10,10}`, which share the line `x = 10`. -/
theorem OutsideCollided_touching_witness :
    OutsideCollided ⟨0, 0, 10, 10⟩ ⟨10, 0, 10, 10⟩ = false :=
  OutsideCollided_touching ⟨0, 0, 10, 10⟩ ⟨10, 0, 10, 10⟩ (Or.inl (by decide))

/-- C8 as stated fails: `{5,5,-1,-1}` has negative width and height, yet
against `{0,0,10,10}` the comparisons of `OutsideCollided` report an overlap
and those of `InsideCollided` report no violation. -/
theorem malformed_counterexample :
    (⟨5, 5, -1, -1⟩ : SDL_Rect).w < 0 ∧ (⟨5, 5, -1, -1⟩ : SDL_Rect).h < 0 ∧
    OutsideCollided ⟨5, 5, -1, -1⟩ ⟨0, 0, 10, 10⟩ = true ∧
    InsideCollided ⟨5, 5, -1, -1⟩ ⟨0, 0, 10, 10⟩ = false := by
  decide

/-- C8 (amended): for a rectangle `r1` with negative width or height,
`OutsideCollided(r1, r2)` is false for every `r2` whose size on a malformed
axis of `r1` does not exceed the magnitude of the negative size of `r1` on that
axis, and for every `r2` with width and height `≥ 0` the test
`InsideCollided(r1, r2)` is true exactly when `r1` is not contained in `r2`. -/
theorem malformed_rect (r1 r2 : SDL_Rect) (hneg : r1.w < 0 ∨ r1.h < 0) :
    (((r1.w < 0 ∧ r2.w ≤ -r1.w) ∨ (r1.h < 0 ∧ r2.h ≤ -r1.h)) →
      OutsideCollided r1 r2 = false) ∧
    (0 ≤ r2.w → 0 ≤ r2.h → (InsideCollided r1 r2 = true ↔ ¬ Contained r1 r2)) := by
  constructor
  · intro h
    rw [OutsideCollided_eq_false_iff]
    omega
  · intro hw hh
    rw [InsideCollided_eq_true_iff]
    have hnot : ¬ Contained r2 r1 := by
      unfold Contained
      omega
    exact ⟨fun h => h.1, fun h => ⟨h, hnot⟩⟩

/-- C8 (amended) at `{5,5,-3,1}` against the small rectangle `{0,0,2,2}`: no
overlap, and a violation because `{5,5,-3,1}` is not contained in it. -/
theorem malformed_rect_witness :
    OutsideCollided ⟨5, 5, -3, 1⟩ ⟨0, 0, 2, 2⟩ = false ∧
    InsideCollided ⟨5, 5, -3, 1⟩ ⟨0, 0, 2, 2⟩ = true :=
  ⟨(malformed_rect ⟨5, 5, -3, 1⟩ ⟨0, 0, 2, 2⟩ (Or.inl (by decide))).1
      (Or.inl ⟨by decide, by decide⟩),
   ((malformed_rect ⟨5, 5, -3, 1⟩ ⟨0, 0, 2, 2⟩ (Or.inl (by decide))).2
      (by decide) (by decide)).2 (by decide)⟩

/-! ## A set of boxes against a rectangle -/

theorem InsideCollidedVec_eq_true_iff (A : List SDL_Rect) (r : SDL_Rect) :
    InsideCollidedVec A r = true ↔ ∃ a ∈ A, InsideCollided a r = true := by
  induction A with
  | nil => simp [InsideCollidedVec]
  | cons a rest ih =>
    unfold InsideCollidedVec
    by_cases h : InsideCollided a r = true
    · simp [h]
    · simp [h, ih]

theorem InsideCollidedVec_eq_false_iff (A : List SDL_Rect) (r : SDL_Rect) :
    InsideCollidedVec A r = false ↔ ∀ a ∈ A, InsideCollided a r = false := by
  have h := InsideCollidedVec_eq_true_iff A r
  cases hc : InsideCollidedVec A r
  · simp only [hc, Bool.false_eq_true, false_iff, not_exists, not_and,
      Bool.not_eq_true, true_iff] at h ⊢
    exact h
  · simp only [hc, true_iff, Bool.true_eq_false, false_iff, not_forall] at h ⊢
    obtain ⟨a, ha, hv⟩ := h
    exact ⟨a, ha, by simp [hv]⟩

/-- C9: the set-versus-rectangle containment test is the OR of the pairwise
test: `InsideCollided(A, r)` is true if and only if some element `a` of `A` has
`InsideCollided(a, r)` true; in particular it is false for the empty set. -/
theorem InsideCollidedVec_iff_exists (A : List SDL_Rect) (r : SDL_Rect) :
    (InsideCollidedVec A r = true ↔ ∃ a ∈ A, InsideCollided a r = true) ∧
    InsideCollidedVec [] r = false :=
  ⟨InsideCollidedVec_eq_true_iff A r, rfl⟩

/-! ## The stopwatch -/

theorem toInt32_of_fits (z : Int) (hlo : -2147483648 ≤ z) (hhi : z < 2147483648) :
    toInt32 z = z := by
  unfold toInt32
  omega

theorem toInt32_sub_toInt32 (a b : Int) : toInt32 (a - toInt32 b) = toInt32 (a - b) := by
  unfold toInt32
  omega

/-- C10 as stated fails: a timer started at 0, paused after 2147483648 ms,
resumed 1000 ms later and read 10 ms after that returns -2147483638, not the
running time 2147483658, because the elapsed time is kept in a 32-bit `int`. -/
theorem pause_resume_counterexample :
    (0 : Int) ≤ 2147483648 ∧ (2147483648 : Int) ≤ 2147484648 ∧
    (2147484648 : Int) ≤ 2147484658 ∧
    (((Timer.new.Start 0).Pause 2147483648).Resume 2147484648).GetTime 2147484658
      = -2147483638 ∧
    (((Timer.new.Start 0).Pause 2147483648).Resume 2147484648).GetTime 2147484658
      ≠ (2147483648 - 0) + (2147484658 - 2147484648) := by
  decide

/-- C10 (amended): for a freshly constructed or Reset timer and clock readings
`t0 ≤ t1 ≤ t2 ≤ t3` whose running time `(t1 - t0) + (t3 - t2)` is below
`2^31` ms, Start at `t0`, Pause at `t1`, Resume at `t2` and GetTime at `t3`
returns exactly `(t1 - t0) + (t3 - t2)`: the paused span is not counted. -/
theorem pause_resume_continuity (s : Timer) (t0 t1 t2 t3 : Int)
    (h01 : t0 ≤ t1) (_h12 : t1 ≤ t2) (h23 : t2 ≤ t3)
    (hfit : (t1 - t0) + (t3 - t2) < 2147483648) :
    (((Timer.new.Start t0).Pause t1).Resume t2).GetTime t3 = (t1 - t0) + (t3 - t2) ∧
    ((((Timer.Reset s).Start t0).Pause t1).Resume t2).GetTime t3 = (t1 - t0) + (t3 - t2) := by
  have key : toInt32 (t3 - toInt32 (t2 - toInt32 (t1 - toInt32 t0)))
      = (t1 - t0) + (t3 - t2) := by
    unfold toInt32
    omega
  constructor <;>
    simp [Timer.new, Timer.Reset, Timer.Start, Timer.Pause, Timer.Resume, Timer.GetTime, key]

/-- C10 (amended) on the example of the specification: 50 ms running, 1000 ms
paused, 10 ms running reads 60 ms. -/
theorem pause_resume_continuity_witness :
    (((Timer.new.Start 0).Pause 50).Resume 1050).GetTime 1060 = 60 :=
  (pause_resume_continuity Timer.new 0 50 1050 1060
    (by decide) (by decide) (by decide) (by decide)).1

/-! ## Recomputing the boxes from the anchor -/

theorem moveBoxesLoop_isSome (x y : Int) :
    ∀ (boxes : List SDL_Rect) (delta : List SDL_Point), boxes.length ≤ delta.length →
      ∃ bs, moveBoxesLoop x y boxes delta = some bs := by
  intro boxes
  induction boxes with
  | nil => intro delta _; exact ⟨[], rfl⟩
  | cons b rest ih =>
    intro delta hlen
    cases delta with
    | nil => simp at hlen
    | cons d ds =>
      obtain ⟨r, hr⟩ := ih ds (by simpa using hlen)
      exact ⟨{ b with x := x + d.x, y := y + d.y } :: r, by simp [moveBoxesLoop, hr]⟩

/-- Recomputing already recomputed boxes gives what recomputing the original
boxes gives: positions are overwritten, sizes are kept. -/
theorem moveBoxesLoop_again (x y x2 y2 : Int) :
    ∀ (boxes : List SDL_Rect) (delta : List SDL_Point) (bs : List SDL_Rect),
      moveBoxesLoop x y boxes delta = some bs →
      moveBoxesLoop x2 y2 bs delta = moveBoxesLoop x2 y2 boxes delta := by
  intro boxes
  induction boxes with
  | nil =>
    intro delta bs h
    simp [moveBoxesLoop] at h
    subst h
    rfl
  | cons b rest ih =>
    intro delta bs h
    cases delta with
    | nil => simp [moveBoxesLoop] at h
    | cons d ds =>
      simp only [moveBoxesLoop, Option.map_eq_some'] at h
      obtain ⟨r, hr, hbs⟩ := h
      subst hbs
      simp only [moveBoxesLoop, ih ds r hr]

/-- Boxes that already sit at anchor plus offset are left as they are. -/
theorem moveBoxesLoop_attached (x y : Int) (boxes : List SDL_Rect) (delta : List SDL_Point)
    (h : List.Forall₂ (fun (b : SDL_Rect) (d : SDL_Point) => b.x = x + d.x ∧ b.y = y + d.y)
      boxes delta) :
    moveBoxesLoop x y boxes delta = some boxes := by
  induction h with
  | nil => rfl
  | @cons b d bs ds hbd _ ih =>
    obtain ⟨bx, by0, bw, bh⟩ := b
    simp only at hbd
    simp [moveBoxesLoop, ih, hbd.1, hbd.2]

/-- What recomputation does to boxes attached at `(x0, y0)`: the result is
attached at the new anchor, and each box is its predecessor shifted by the
displacement of the anchor, with the same size. -/
theorem moveBoxesLoop_shift (x0 y0 x y : Int) (boxes : List SDL_Rect) (delta : List SDL_Point)
    (h : List.Forall₂ (fun (b : SDL_Rect) (d : SDL_Point) => b.x = x0 + d.x ∧ b.y = y0 + d.y)
      boxes delta) :
    ∃ bs, moveBoxesLoop x y boxes delta = some bs ∧
      List.Forall₂ (fun (b : SDL_Rect) (d : SDL_Point) => b.x = x + d.x ∧ b.y = y + d.y)
        bs delta ∧
      List.Forall₂ (fun (b2 b : SDL_Rect) =>
        b2.w = b.w ∧ b2.h = b.h ∧ b2.x = b.x + (x - x0) ∧ b2.y = b.y + (y - y0)) bs boxes := by
  induction h with
  | nil => exact ⟨[], rfl, List.Forall₂.nil, List.Forall₂.nil⟩
  | @cons b d bs ds hbd _ ih =>
    obtain ⟨r, hr, hatt, hrel⟩ := ih
    refine ⟨{ b with x := x + d.x, y := y + d.y } :: r, by simp [moveBoxesLoop, hr],
      List.Forall₂.cons ⟨rfl, rfl⟩ hatt, List.Forall₂.cons ⟨rfl, rfl, ?_, ?_⟩ hrel⟩
    · simp only; omega
    · simp only; omega

/-! ## The two phases of `Move` -/

/-- A box that was inside the region and has been shifted is again inside the
region as soon as the pairwise test does not fire: the other way of passing
the test, the region lying inside the box, forces a box of that size to
coincide with the region. -/
theorem Contained_of_shift (b b2 r : SDL_Rect) (dx dy : Int)
    (hw : b2.w = b.w) (hh : b2.h = b.h) (hx : b2.x = b.x + dx) (hy : b2.y = b.y + dy)
    (hb : Contained b r) (hc : InsideCollided b2 r = false) : Contained b2 r := by
  rw [InsideCollided_eq_false_iff] at hc
  unfold Contained at hb hc ⊢
  omega

theorem all_Contained_of_shift (r : SDL_Rect) (dx dy : Int)
    (bs boxes : List SDL_Rect)
    (hrel : List.Forall₂ (fun (b2 b : SDL_Rect) =>
      b2.w = b.w ∧ b2.h = b.h ∧ b2.x = b.x + dx ∧ b2.y = b.y + dy) bs boxes)
    (hin : ∀ b ∈ boxes, Contained b r) (hc : InsideCollidedVec bs r = false) :
    ∀ b2 ∈ bs, Contained b2 r := by
  rw [InsideCollidedVec_eq_false_iff] at hc
  induction hrel with
  | nil => intro b2 hb2; simp at hb2
  | @cons b2 b bs boxes hbb _ ih =>
    intro c hcmem
    rcases List.mem_cons.1 hcmem with rfl | hmem
    · exact Contained_of_shift b c r dx dy hbb.1 hbb.2.1 hbb.2.2.1 hbb.2.2.2
        (hin b (List.mem_cons_self _ _)) (hc c (List.mem_cons_self _ _))
    · exact ih (fun a ha => hin a (List.mem_cons_of_mem _ ha))
        (fun a ha => hc a (List.mem_cons_of_mem _ ha)) c hmem

/-- The X phase in closed form, for a state in which the first recomputation
reads inside `delta`. -/
theorem MoveX_eq (s : MovableTexture) (bs : List SDL_Rect)
    (h : moveBoxesLoop (s.x + s.velocity_x) s.y s.boxes s.delta = some bs) :
    s.MoveX =
      if InsideCollidedVec bs s.range = true then
        (moveBoxesLoop (s.x + s.velocity_x - s.velocity_x) s.y s.boxes s.delta).map
          (fun bs2 => { s with x := s.x + s.velocity_x - s.velocity_x, boxes := bs2 })
      else
        some { s with x := s.x + s.velocity_x, boxes := bs } := by
  unfold MovableTexture.MoveX MovableTexture.MoveBoxes
  simp only [h, Option.map_some', Option.some_bind]
  split
  · simp only [moveBoxesLoop_again _ _ _ _ _ _ _ h]
  · rfl

/-- The Y phase in closed form. -/
theorem MoveY_eq (s : MovableTexture) (bs : List SDL_Rect)
    (h : moveBoxesLoop s.x (s.y + s.velocity_y) s.boxes s.delta = some bs) :
    s.MoveY =
      if InsideCollidedVec bs s.range = true then
        (moveBoxesLoop s.x (s.y + s.velocity_y - s.velocity_y) s.boxes s.delta).map
          (fun bs2 => { s with y := s.y + s.velocity_y - s.velocity_y, boxes := bs2 })
      else
        some { s with y := s.y + s.velocity_y, boxes := bs } := by
  unfold MovableTexture.MoveY MovableTexture.MoveBoxes
  simp only [h, Option.map_some', Option.some_bind]
  split
  · simp only [moveBoxesLoop_again _ _ _ _ _ _ _ h]
  · rfl

/-- A rolled back X phase returns an attached state unchanged. -/
theorem MoveX_of_collided (s : MovableTexture) (hatt : Attached s) (bs : List SDL_Rect)
    (h : moveBoxesLoop (s.x + s.velocity_x) s.y s.boxes s.delta = some bs)
    (hc : InsideCollidedVec bs s.range = true) : s.MoveX = some s := by
  rw [MoveX_eq s bs h, if_pos hc]
  have hx : s.x + s.velocity_x - s.velocity_x = s.x := by omega
  rw [hx, moveBoxesLoop_attached s.x s.y s.boxes s.delta hatt]
  rfl

/-- A rolled back Y phase returns an attached state unchanged. -/
theorem MoveY_of_collided (s : MovableTexture) (hatt : Attached s) (bs : List SDL_Rect)
    (h : moveBoxesLoop s.x (s.y + s.velocity_y) s.boxes s.delta = some bs)
    (hc : InsideCollidedVec bs s.range = true) : s.MoveY = some s := by
  rw [MoveY_eq s bs h, if_pos hc]
  have hy : s.y + s.velocity_y - s.velocity_y = s.y := by omega
  rw [hy, moveBoxesLoop_attached s.x s.y s.boxes s.delta hatt]
  rfl

/-- The X phase keeps "attached and every box inside the region". -/
theorem MoveX_inv (s : MovableTexture) (hatt : Attached s)
    (hin : ∀ b ∈ s.boxes, Contained b s.range) :
    ∃ s1, s.MoveX = some s1 ∧ Attached s1 ∧ (∀ b ∈ s1.boxes, Contained b s1.range) := by
  obtain ⟨bs, hbs, hatt2, hrel⟩ :=
    moveBoxesLoop_shift s.x s.y (s.x + s.velocity_x) s.y s.boxes s.delta hatt
  cases hc : InsideCollidedVec bs s.range
  · refine ⟨{ s with x := s.x + s.velocity_x, boxes := bs }, ?_, hatt2, ?_⟩
    · rw [MoveX_eq s bs hbs, if_neg (by simp [hc])]
    · exact all_Contained_of_shift s.range _ _ bs s.boxes hrel hin hc
  · exact ⟨s, MoveX_of_collided s hatt bs hbs hc, hatt, hin⟩

/-- The Y phase keeps "attached and every box inside the region". -/
theorem MoveY_inv (s : MovableTexture) (hatt : Attached s)
    (hin : ∀ b ∈ s.boxes, Contained b s.range) :
    ∃ s1, s.MoveY = some s1 ∧ Attached s1 ∧ (∀ b ∈ s1.boxes, Contained b s1.range) := by
  obtain ⟨bs, hbs, hatt2, hrel⟩ :=
    moveBoxesLoop_shift s.x s.y s.x (s.y + s.velocity_y) s.boxes s.delta hatt
  cases hc : InsideCollidedVec bs s.range
  · refine ⟨{ s with y := s.y + s.velocity_y, boxes := bs }, ?_, hatt2, ?_⟩
    · rw [MoveY_eq s bs hbs, if_neg (by simp [hc])]
    · exact all_Contained_of_shift s.range _ _ bs s.boxes hrel hin hc
  · exact ⟨s, MoveY_of_collided s hatt bs hbs hc, hatt, hin⟩

/-- C1: containment is preserved by `Move`.  From a state in which each box
equals the anchor plus its stored offset and every box is contained in the
range rectangle, and for every velocity, `Move()` returns a state in which
every box is again contained in the range rectangle. -/
theorem Move_preserves_containment (s : MovableTexture) (hatt : Attached s)
    (hin : ∀ b ∈ s.boxes, Contained b s.range) :
    ∃ s2, s.Move = some s2 ∧ ∀ b ∈ s2.boxes, Contained b s2.range := by
  obtain ⟨s1, h1, hatt1, hin1⟩ := MoveX_inv s hatt hin
  obtain ⟨s2, h2, _, hin2⟩ := MoveY_inv s1 hatt1 hin1
  exact ⟨s2, by simp [MovableTexture.Move, h1, h2], hin2⟩

/-- C1 on `insideState`: two attached boxes inside `{0,0,10,10}` moving by
`(3,20)`; the X step is taken, the Y step is rolled back. -/
theorem Move_preserves_containment_witness :
    Attached insideState ∧ (∀ b ∈ insideState.boxes, Contained b insideState.range) ∧
    ∃ s2, insideState.Move = some s2 ∧ ∀ b ∈ s2.boxes, Contained b s2.range :=
  ⟨by decide, by decide, Move_preserves_containment insideState (by decide) (by decide)⟩

theorem moveBoxesLoop_length (x y : Int) :
    ∀ (boxes : List SDL_Rect) (delta : List SDL_Point) (bs : List SDL_Rect),
      moveBoxesLoop x y boxes delta = some bs → bs.length = boxes.length := by
  intro boxes
  induction boxes with
  | nil =>
    intro delta bs h
    simp [moveBoxesLoop] at h
    subst h
    rfl
  | cons b rest ih =>
    intro delta bs h
    cases delta with
    | nil => simp [moveBoxesLoop] at h
    | cons d ds =>
      simp only [moveBoxesLoop, Option.map_eq_some'] at h
      obtain ⟨r, hr, hbs⟩ := h
      subst hbs
      simp [ih ds r hr]

/-- The X phase returns whenever there are at least as many offsets as boxes;
it changes the anchor x and the boxes only, the new anchor x being the old one
after a rollback and the advanced one otherwise, and the new boxes being the
old ones recomputed at the new anchor. -/
theorem MoveX_spec (s : MovableTexture) (hlen : s.boxes.length ≤ s.delta.length)
    (moved : List SDL_Rect)
    (hmoved : moveBoxesLoop (s.x + s.velocity_x) s.y s.boxes s.delta = some moved) :
    ∃ sx, s.MoveX = some sx ∧ sx.y = s.y ∧ sx.delta = s.delta ∧ sx.range = s.range ∧
      sx.boxes.length = s.boxes.length ∧
      sx.x = (if InsideCollidedVec moved s.range = true then s.x else s.x + s.velocity_x) ∧
      moveBoxesLoop sx.x s.y s.boxes s.delta = some sx.boxes := by
  rw [MoveX_eq s moved hmoved]
  have hx : s.x + s.velocity_x - s.velocity_x = s.x := by omega
  by_cases hc : InsideCollidedVec moved s.range = true
  · obtain ⟨bs2, hbs2⟩ := moveBoxesLoop_isSome s.x s.y s.boxes s.delta hlen
    rw [if_pos hc, if_pos hc, hx, hbs2]
    exact ⟨{ s with x := s.x, boxes := bs2 }, rfl, rfl, rfl, rfl,
      moveBoxesLoop_length _ _ _ _ _ hbs2, rfl, hbs2⟩
  · rw [if_neg hc, if_neg hc]
    exact ⟨{ s with x := s.x + s.velocity_x, boxes := moved }, rfl, rfl, rfl, rfl,
      moveBoxesLoop_length _ _ _ _ _ hmoved, rfl, hmoved⟩

/-- The Y phase returns whenever there are at least as many offsets as boxes;
it leaves the anchor x alone and its boxes are the old ones recomputed at the
new anchor. -/
theorem MoveY_spec (s : MovableTexture) (hlen : s.boxes.length ≤ s.delta.length) :
    ∃ s2, s.MoveY = some s2 ∧ s2.x = s.x ∧
      moveBoxesLoop s.x s2.y s.boxes s.delta = some s2.boxes := by
  obtain ⟨moved, hmoved⟩ :=
    moveBoxesLoop_isSome s.x (s.y + s.velocity_y) s.boxes s.delta hlen
  rw [MoveY_eq s moved hmoved]
  have hy : s.y + s.velocity_y - s.velocity_y = s.y := by omega
  by_cases hc : InsideCollidedVec moved s.range = true
  · obtain ⟨bs2, hbs2⟩ := moveBoxesLoop_isSome s.x s.y s.boxes s.delta hlen
    rw [if_pos hc, hy, hbs2]
    exact ⟨{ s with y := s.y, boxes := bs2 }, rfl, rfl, hbs2⟩
  · rw [if_neg hc]
    exact ⟨{ s with y := s.y + s.velocity_y, boxes := moved }, rfl, rfl, hmoved⟩

/-- C2 as stated fails, in two ways.  On `detachedState` (anchor `(0,0)`, box
still at `{5,5,1,1}`) the X step to `(10,0)` violates the region and is rolled
back, the anchor x is restored to 0, but the box is recomputed from the anchor
to `{0,0,1,1}`: it is not restored to its pre-move rectangle, neither at the
end of the X phase nor after `Move()`.  On the attached `slidingState` the X
step is rolled back too and the box is restored by the X phase, but `Move()`
then takes the Y step, so after `Move()` the box is `{1,4,3,3}`, not its
pre-move rectangle `{1,1,3,3}`. -/
theorem Move_x_rollback_counterexample :
    (detachedState =
        { w := 100, h := 100, x := 0, y := 0, range := ⟨0, 0, 10, 10⟩,
          boxes := [⟨5, 5, 1, 1⟩], delta := [⟨0, 0⟩], velocity_x := 10, velocity_y := 0 } ∧
      moveBoxesLoop (detachedState.x + detachedState.velocity_x) detachedState.y
        detachedState.boxes detachedState.delta = some [⟨10, 0, 1, 1⟩] ∧
      InsideCollidedVec [⟨10, 0, 1, 1⟩] detachedState.range = true ∧
      detachedState.MoveX = some { detachedState with x := 0, boxes := [⟨0, 0, 1, 1⟩] } ∧
      detachedState.Move = some { detachedState with x := 0, boxes := [⟨0, 0, 1, 1⟩] }) ∧
    (Attached slidingState ∧ slidingState.boxes = [⟨1, 1, 3, 3⟩] ∧
      moveBoxesLoop (slidingState.x + slidingState.velocity_x) slidingState.y
        slidingState.boxes slidingState.delta = some [⟨21, 1, 3, 3⟩] ∧
      InsideCollidedVec [⟨21, 1, 3, 3⟩] slidingState.range = true ∧
      slidingState.MoveX = some slidingState ∧
      slidingState.Move = some { slidingState with y := 4, boxes := [⟨1, 4, 3, 3⟩] }) := by
  decide

/-- C2 (amended): in every state with at least as many offsets as boxes, and
for every velocity, `Move()` returns; writing `moved` for the boxes recomputed
at `(x + velocity_x, y)`, the anchor x after `Move()` equals the pre-move `x`
when `InsideCollided(moved, range)` is true and `x + velocity_x` when it is
false (so for a non-zero `velocity_x` it equals the pre-move `x` exactly when
the test is true).  In the rollback case, if each box equalled the anchor plus
its stored offset before the move, the boxes at the end of the X phase are the
pre-move rectangles, and so are the boxes after `Move()` whenever the Y phase
leaves the anchor y at its pre-move value. -/
theorem Move_x_rollback (s : MovableTexture) (hlen : s.boxes.length ≤ s.delta.length) :
    ∃ moved sx s2,
      moveBoxesLoop (s.x + s.velocity_x) s.y s.boxes s.delta = some moved ∧
      s.MoveX = some sx ∧ s.Move = some s2 ∧
      (InsideCollidedVec moved s.range = true → s2.x = s.x) ∧
      (InsideCollidedVec moved s.range = false → s2.x = s.x + s.velocity_x) ∧
      (s.velocity_x ≠ 0 → (s2.x = s.x ↔ InsideCollidedVec moved s.range = true)) ∧
      (InsideCollidedVec moved s.range = true → Attached s →
        sx.boxes = s.boxes ∧ (s2.y = s.y → s2.boxes = s.boxes)) := by
  obtain ⟨moved, hmoved⟩ :=
    moveBoxesLoop_isSome (s.x + s.velocity_x) s.y s.boxes s.delta hlen
  obtain ⟨sx, hsx, -, hd, -, hl, hxx, -⟩ := MoveX_spec s hlen moved hmoved
  obtain ⟨s2, hs2, h2x, hb2⟩ := MoveY_spec sx (by rw [hl, hd]; exact hlen)
  refine ⟨moved, sx, s2, hmoved, hsx, by simp [MovableTexture.Move, hsx, hs2], ?_, ?_, ?_, ?_⟩
  · intro hc
    rw [h2x, hxx, if_pos hc]
  · intro hc
    rw [h2x, hxx, if_neg (by simp [hc])]
  · intro hv
    rw [h2x, hxx]
    by_cases hc : InsideCollidedVec moved s.range = true
    · simp [hc]
    · rw [if_neg hc]
      constructor
      · intro h; omega
      · intro h; exact absurd h hc
  · intro hc hatt
    have hsame : sx = s := by
      have h := MoveX_of_collided s hatt moved hmoved hc
      rw [hsx] at h
      exact Option.some.inj h
    subst hsame
    refine ⟨rfl, fun hy => ?_⟩
    rw [hy, moveBoxesLoop_attached sx.x sx.y sx.boxes sx.delta hatt] at hb2
    exact (Option.some.inj hb2).symm

/-- C2 (amended) on `slidingState`: one offset for one box, X step rolled
back. -/
theorem Move_x_rollback_witness :
    slidingState.boxes.length ≤ slidingState.delta.length ∧
    ∃ moved sx s2,
      moveBoxesLoop (slidingState.x + slidingState.velocity_x) slidingState.y
        slidingState.boxes slidingState.delta = some moved ∧
      slidingState.MoveX = some sx ∧ slidingState.Move = some s2 ∧
      (InsideCollidedVec moved slidingState.range = true → s2.x = slidingState.x) ∧
      (InsideCollidedVec moved slidingState.range = false →
        s2.x = slidingState.x + slidingState.velocity_x) ∧
      (slidingState.velocity_x ≠ 0 →
        (s2.x = slidingState.x ↔ InsideCollidedVec moved slidingState.range = true)) ∧
      (InsideCollidedVec moved slidingState.range = true → Attached slidingState →
        sx.boxes = slidingState.boxes ∧
          (s2.y = slidingState.y → s2.boxes = slidingState.boxes)) :=
  ⟨by decide, Move_x_rollback slidingState (by decide)⟩

/-! ## Timer calls out of order -/

theorem Timer_Stop_Stop (s : Timer) (t1 t2 : Int) : (s.Stop t1).Stop t2 = s.Stop t1 := by
  unfold Timer.Stop
  cases hs : s.started <;> simp [hs]

/-- C11: `Stop` is idempotent.  For every timer state and all clock readings
`t1`, `t2`, `Stop` at `t1` followed by `Stop` at `t2` leaves the four fields as
`Stop` at `t1` alone does; in particular `Start(); Stop(); Stop()` equals
`Start(); Stop()`. -/
theorem Stop_idempotent (s : Timer) (t0 t1 t2 : Int) :
    (s.Stop t1).Stop t2 = s.Stop t1 ∧
    ((Timer.new.Start t0).Stop t1).Stop t2 = (Timer.new.Start t0).Stop t1 :=
  ⟨Timer_Stop_Stop s t1 t2, Timer_Stop_Stop (Timer.new.Start t0) t1 t2⟩

/-- C12: calls out of order are no-ops.  `Pause` on a timer that is not
started or already paused, `Resume` on a timer that is not started or not
paused, `Stop` on a timer that is not started and `Start` on a timer that is
already started leave the timer state unchanged, whatever the clock reads. -/
theorem out_of_order_noop (s : Timer) (now : Int) :
    ((s.started = false ∨ s.paused = true) → s.Pause now = s) ∧
    ((s.started = false ∨ s.paused = false) → s.Resume now = s) ∧
    (s.started = false → s.Stop now = s) ∧
    (s.started = true → s.Start now = s) := by
  refine ⟨?_, ?_, ?_, ?_⟩
  · rintro (h | h) <;> simp [Timer.Pause, h]
  · rintro (h | h) <;> simp [Timer.Resume, h]
  · intro h; simp [Timer.Stop, h]
  · intro h; simp [Timer.Start, h]

/-- C12 on a fresh timer (not started) read at 7 ms, and on a timer started at
5 ms and started again at 7 ms. -/
theorem out_of_order_noop_witness :
    Timer.new.Pause 7 = Timer.new ∧ Timer.new.Resume 7 = Timer.new ∧
    Timer.new.Stop 7 = Timer.new ∧
    (Timer.new.Start 5).Start 7 = Timer.new.Start 5 :=
  ⟨(out_of_order_noop Timer.new 7).1 (Or.inl rfl),
   (out_of_order_noop Timer.new 7).2.1 (Or.inl rfl),
   (out_of_order_noop Timer.new 7).2.2.1 rfl,
   (out_of_order_noop (Timer.new.Start 5) 7).2.2.2 rfl⟩

/-! ## The frame-rate monitor -/

/-- C13: refresh cadence of `EndOneFrame`.  If the sampling timer reads less
than 100 ms, `RealFPS` and the sampling timer are left unchanged; if it reads
at least 100 ms and the frame timer reads more than 0 ms, `RealFPS` becomes
`1000 / oneframe.GetTime()` (integer division) and the sampling timer is
reset; in both cases the frame timer ends in the reset state.  `now1` and
`now2` are the clock readings of the two `GetTime()` calls (equal when the
clock does not tick in between). -/
theorem EndOneFrame_cadence (s : FPSmonitor) (now1 now2 : Int) :
    (s.update.GetTime now1 < 100 →
      ∃ s2, s.EndOneFrame now1 now2 = some s2 ∧ s2.RealFPS = s.RealFPS ∧
        s2.update = s.update ∧ s2.oneframe = Timer.new) ∧
    (s.update.GetTime now1 ≥ 100 → s.oneframe.GetTime now2 > 0 →
      ∃ s2, s.EndOneFrame now1 now2 = some s2 ∧
        s2.RealFPS = 1000 / s.oneframe.GetTime now2 ∧
        s2.update = Timer.new ∧ s2.oneframe = Timer.new) := by
  constructor
  · intro h
    refine ⟨{ s with oneframe := s.oneframe.Reset }, ?_, rfl, rfl, rfl⟩
    unfold FPSmonitor.EndOneFrame
    rw [if_neg (by omega)]
  · intro h hpos
    refine ⟨{ s with
        RealFPS := Int.tdiv 1000 (s.oneframe.GetTime now2)
        update := s.update.Reset
        oneframe := s.oneframe.Reset }, ?_, ?_, rfl, rfl⟩
    · unfold FPSmonitor.EndOneFrame
      rw [if_pos h, if_neg (by omega)]
    · exact Int.tdiv_eq_ediv (by decide) (by omega)

/-- C13 on a monitor whose two timers were started at 0 ms: ending the frame
at 50 ms keeps `RealFPS = 0` and the running sampling timer; ending it at
125 ms sets `RealFPS = 1000 / 125 = 8` and resets the sampling timer. -/
theorem EndOneFrame_cadence_witness :
    (∃ s2, (FPSmonitor.new.StartOneFrame 0 0).EndOneFrame 50 50 = some s2 ∧
      s2.RealFPS = (FPSmonitor.new.StartOneFrame 0 0).RealFPS ∧
      s2.update = (FPSmonitor.new.StartOneFrame 0 0).update ∧ s2.oneframe = Timer.new) ∧
    (∃ s2, (FPSmonitor.new.StartOneFrame 0 0).EndOneFrame 125 125 = some s2 ∧
      s2.RealFPS = 1000 / (FPSmonitor.new.StartOneFrame 0 0).oneframe.GetTime 125 ∧
      s2.update = Timer.new ∧ s2.oneframe = Timer.new) :=
  ⟨(EndOneFrame_cadence (FPSmonitor.new.StartOneFrame 0 0) 50 50).1 (by decide),
   (EndOneFrame_cadence (FPSmonitor.new.StartOneFrame 0 0) 125 125).2 (by decide) (by decide)⟩

/-- `EndOneFrame` fails exactly when the sampling timer reads at least 100 ms
and the frame timer reads 0 ms. -/
theorem EndOneFrame_eq_none_iff (s : FPSmonitor) (now1 now2 : Int) :
    s.EndOneFrame now1 now2 = none ↔
      s.update.GetTime now1 ≥ 100 ∧ s.oneframe.GetTime now2 = 0 := by
  unfold FPSmonitor.EndOneFrame
  by_cases h1 : s.update.GetTime now1 ≥ 100
  · by_cases h2 : s.oneframe.GetTime now2 = 0
    · simp [h1, h2]
    · simp [h1, h2]
  · simp [h1]

/-- `Control` fails exactly when pacing is enabled and `TargetFPS` is 0. -/
theorem Control_eq_none_iff (s : FPSmonitor) (now1 now2 : Int) :
    s.Control now1 now2 = none ↔ s.control = true ∧ s.TargetFPS = 0 := by
  unfold FPSmonitor.Control
  by_cases hF : s.TargetFPS = 0
  · cases hc : s.control <;> simp [hF, hc]
  · split_ifs <;> simp [hF]

/-- C14: the code does not guard the zero-duration frame.  A first frame runs
from 0 ms to 50 ms; the second frame starts at 100 ms and ends within the same
millisecond.  At that call the sampling timer reads 100 ms and the frame timer
0 ms, and `EndOneFrame` evaluates `1000 / 0`. -/
theorem EndOneFrame_zero_frame_faults :
    ∃ m, (FPSmonitor.new.StartOneFrame 0 0).EndOneFrame 50 50 = some m ∧
      (m.StartOneFrame 100 100).update.GetTime 100 = 100 ∧
      (m.StartOneFrame 100 100).oneframe.GetTime 100 = 0 ∧
      (m.StartOneFrame 100 100).EndOneFrame 100 100 = none :=
  ⟨_, rfl, by decide, by decide, by decide⟩

/-- C15: `Control()` is not total.  On a freshly constructed monitor
(`TargetFPS = 0`, `control = true`, frame timer not started) the test
`0 * 0 < 1000` succeeds and the argument of `SDL_Delay` evaluates
`1000 / TargetFPS = 1000 / 0`, whatever the clock reads. -/
theorem Control_fresh_faults (now1 now2 : Int) :
    FPSmonitor.new.TargetFPS = 0 ∧ FPSmonitor.new.control = true ∧
    FPSmonitor.new.Control now1 now2 = none := by
  refine ⟨rfl, rfl, ?_⟩
  simp [FPSmonitor.Control, FPSmonitor.new, Timer.new, Timer.GetTime]

theorem HandleEvent_down_up (s : MovableTexture) (sym : Int) :
    (s.HandleEvent ⟨SDL_KEYDOWN, 0, sym⟩).HandleEvent ⟨SDL_KEYUP, 0, sym⟩ = s := by
  obtain ⟨⟨w, h⟩, x, y, range, boxes, delta, vx, vy⟩ := s
  simp only [MovableTexture.HandleEvent, SDL_KEYDOWN, SDL_KEYUP, SDLK_w, SDLK_s, SDLK_a, SDLK_d]
  by_cases h1 : sym = 119
  · subst h1; simp
  · by_cases h2 : sym = 115
    · subst h2; simp
    · by_cases h3 : sym = 97
      · subst h3; simp
      · by_cases h4 : sym = 100
        · subst h4; simp
        · simp [h1, h2, h3, h4]

theorem HandleEvent_down_down (s : MovableTexture) :
    (s.HandleEvent ⟨SDL_KEYDOWN, 0, SDLK_a⟩).HandleEvent ⟨SDL_KEYDOWN, 0, SDLK_d⟩ = s ∧
    (s.HandleEvent ⟨SDL_KEYDOWN, 0, SDLK_d⟩).HandleEvent ⟨SDL_KEYDOWN, 0, SDLK_a⟩ = s ∧
    (s.HandleEvent ⟨SDL_KEYDOWN, 0, SDLK_w⟩).HandleEvent ⟨SDL_KEYDOWN, 0, SDLK_s⟩ = s ∧
    (s.HandleEvent ⟨SDL_KEYDOWN, 0, SDLK_s⟩).HandleEvent ⟨SDL_KEYDOWN, 0, SDLK_w⟩ = s := by
  obtain ⟨⟨w, h⟩, x, y, range, boxes, delta, vx, vy⟩ := s
  simp [MovableTexture.HandleEvent, SDL_KEYDOWN, SDLK_w, SDLK_s, SDLK_a, SDLK_d]

/-- C17: velocity deltas cancel.  A non-repeat key-down followed by a
non-repeat key-up of the same key (W, A, S, D, or any other key) returns the
entity to the state before the pair, so `(velocity_x, velocity_y)` has its
prior value; non-repeat key-downs of A and D, or of W and S, in either order
do the same, so the corresponding velocity component has its prior value, zero
when it started from zero. -/
theorem velocity_deltas_cancel (s : MovableTexture) :
    (∀ sym : Int,
      ((s.HandleEvent ⟨SDL_KEYDOWN, 0, sym⟩).HandleEvent ⟨SDL_KEYUP, 0, sym⟩).velocity_x
          = s.velocity_x ∧
      ((s.HandleEvent ⟨SDL_KEYDOWN, 0, sym⟩).HandleEvent ⟨SDL_KEYUP, 0, sym⟩).velocity_y
          = s.velocity_y) ∧
    ((s.HandleEvent ⟨SDL_KEYDOWN, 0, SDLK_a⟩).HandleEvent ⟨SDL_KEYDOWN, 0, SDLK_d⟩).velocity_x
        = s.velocity_x ∧
    ((s.HandleEvent ⟨SDL_KEYDOWN, 0, SDLK_d⟩).HandleEvent ⟨SDL_KEYDOWN, 0, SDLK_a⟩).velocity_x
        = s.velocity_x ∧
    ((s.HandleEvent ⟨SDL_KEYDOWN, 0, SDLK_w⟩).HandleEvent ⟨SDL_KEYDOWN, 0, SDLK_s⟩).velocity_y
        = s.velocity_y ∧
    ((s.HandleEvent ⟨SDL_KEYDOWN, 0, SDLK_s⟩).HandleEvent ⟨SDL_KEYDOWN, 0, SDLK_w⟩).velocity_y
        = s.velocity_y := by
  obtain ⟨h1, h2, h3, h4⟩ := HandleEvent_down_down s
  refine ⟨fun sym => ?_, ?_, ?_, ?_, ?_⟩
  · rw [HandleEvent_down_up s sym]
    exact ⟨rfl, rfl⟩
  · rw [h1]
  · rw [h2]
  · rw [h3]
  · rw [h4]

/-! ## The camera -/

/-- `CameraFollow` axis by axis: the size of the camera is kept, and each
coordinate is 0 when the centred coordinate is negative, else the high-edge
aligned value when the centred camera passes the high edge of the region,
else the centred coordinate. -/
theorem CameraFollow_eq (s : MovableTexture) (camera : SDL_Rect) :
    s.CameraFollow camera =
      { x := (if s.x + Int.tdiv s.w 2 - Int.tdiv camera.w 2 < 0 then 0
              else if s.x + Int.tdiv s.w 2 - Int.tdiv camera.w 2 + camera.w
                  > s.range.x + s.range.w then s.range.x + s.range.w - camera.w
              else s.x + Int.tdiv s.w 2 - Int.tdiv camera.w 2)
        y := (if s.y + Int.tdiv s.h 2 - Int.tdiv camera.h 2 < 0 then 0
              else if s.y + Int.tdiv s.h 2 - Int.tdiv camera.h 2 + camera.h
                  > s.range.y + s.range.h then s.range.y + s.range.h - camera.h
              else s.y + Int.tdiv s.h 2 - Int.tdiv camera.h 2)
        w := camera.w
        h := camera.h } := by
  unfold MovableTexture.CameraFollow
  simp only
  split_ifs <;> rfl

/-- C18: the camera can show area outside the containment region.  For the
entity created at `(100,100)` in the region `{100,100,1000,1000}` and a
200 x 200 camera (not larger than the region), the centred camera is at
`(0,0)`, which is neither negative nor past the high edge, so `CameraFollow`
leaves it at `{0,0,200,200}`: left of and above the low edges `x = 100`,
`y = 100` of the region. -/
theorem CameraFollow_outside_region :
    offsetRegionState.range = ⟨100, 100, 1000, 1000⟩ ∧
    offsetRegionState.x = 100 ∧ offsetRegionState.y = 100 ∧
    offsetRegionState.w = 0 ∧ offsetRegionState.h = 0 ∧
    (200 : Int) ≤ offsetRegionState.range.w ∧ (200 : Int) ≤ offsetRegionState.range.h ∧
    offsetRegionState.CameraFollow ⟨0, 0, 200, 200⟩ = ⟨0, 0, 200, 200⟩ ∧
    ¬ (offsetRegionState.range.x ≤ (offsetRegionState.CameraFollow ⟨0, 0, 200, 200⟩).x) ∧
    ¬ (offsetRegionState.range.y ≤ (offsetRegionState.CameraFollow ⟨0, 0, 200, 200⟩).y) := by
  decide

/-- C19: camera clamp for a region at the origin.  For `range = {0,0,W,H}` and
a camera with `camera.w ≤ W` and `camera.h ≤ H` (in particular
`0 ≤ camera.w ≤ W` and `0 ≤ camera.h ≤ H`), `CameraFollow` sets
`camera.x` to `x + w/2 - camera.w/2` clamped into `[0, W - camera.w]` and
`camera.y` to `y + h/2 - camera.h/2` clamped into `[0, H - camera.h]`, and
leaves `camera.w` and `camera.h` unchanged. -/
theorem CameraFollow_origin (s : MovableTexture) (camera : SDL_Rect) (W H : Int)
    (hr : s.range = ⟨0, 0, W, H⟩) (hw : camera.w ≤ W) (hh : camera.h ≤ H) :
    s.CameraFollow camera =
      { x := max 0 (min (W - camera.w) (s.x + Int.tdiv s.w 2 - Int.tdiv camera.w 2))
        y := max 0 (min (H - camera.h) (s.y + Int.tdiv s.h 2 - Int.tdiv camera.h 2))
        w := camera.w
        h := camera.h } := by
  rw [CameraFollow_eq, hr]
  simp only
  congr 1
  · split_ifs <;> omega
  · split_ifs <;> omega

/-- C19 on the examples of the specification: region `{0,0,1000,1000}`, camera
200 x 200; an entity at `(0,0)` gives `{0,0,200,200}` and an entity at
`(990,990)` gives `{800,800,200,200}` (entity texture 100 x 100). -/
theorem CameraFollow_origin_witness :
    ({ insideState with x := 0, y := 0, range := ⟨0, 0, 1000, 1000⟩ }).CameraFollow
        ⟨7, 7, 200, 200⟩ = ⟨0, 0, 200, 200⟩ ∧
    ({ insideState with x := 990, y := 990, range := ⟨0, 0, 1000, 1000⟩ }).CameraFollow
        ⟨7, 7, 200, 200⟩ = ⟨800, 800, 200, 200⟩ :=
  ⟨CameraFollow_origin { insideState with x := 0, y := 0, range := ⟨0, 0, 1000, 1000⟩ }
      ⟨7, 7, 200, 200⟩ 1000 1000 rfl (by decide) (by decide),
   CameraFollow_origin { insideState with x := 990, y := 990, range := ⟨0, 0, 1000, 1000⟩ }
      ⟨7, 7, 200, 200⟩ 1000 1000 rfl (by decide) (by decide)⟩

/-- The two examples of the specification hold for every entity texture
between 0 x 0 and 201 x 201. -/
theorem CameraFollow_examples (s : MovableTexture) (camera : SDL_Rect)
    (hr : s.range = ⟨0, 0, 1000, 1000⟩) (hcw : camera.w = 200) (hch : camera.h = 200)
    (hw0 : 0 ≤ s.w) (hw : s.w ≤ 201) (hh0 : 0 ≤ s.h) (hh : s.h ≤ 201) :
    (s.x = 0 → s.y = 0 → s.CameraFollow camera = ⟨0, 0, 200, 200⟩) ∧
    (s.x = 990 → s.y = 990 → s.CameraFollow camera = ⟨800, 800, 200, 200⟩) := by
  have h1 : Int.tdiv s.w 2 = s.w / 2 := Int.tdiv_eq_ediv hw0 (by decide)
  have h2 : Int.tdiv s.h 2 = s.h / 2 := Int.tdiv_eq_ediv hh0 (by decide)
  have h3 : Int.tdiv (200 : Int) 2 = 100 := by decide
  constructor
  · intro hx hy
    rw [CameraFollow_eq, hr, hcw, hch, h1, h2, h3, hx, hy]
    simp only
    congr 1
    · split_ifs <;> omega
    · split_ifs <;> omega
  · intro hx hy
    rw [CameraFollow_eq, hr, hcw, hch, h1, h2, h3, hx, hy]
    simp only
    congr 1
    · split_ifs <;> omega
    · split_ifs <;> omega

/-- C20 as stated fails: for the entity created at `(70,10)` in the region
`{0,0,100,100}` and a camera 120 wide, the centred camera starts at `x = 10`,
which is not negative, and its high edge 130 passes the high edge 100 of the
region, so `CameraFollow` sets `camera.x` to the high-edge-aligned value
`0 + 100 - 120 = -20`, not to the low edge 0 of the region. -/
theorem CameraFollow_wide_counterexample :
    smallRegionState.range = ⟨0, 0, 100, 100⟩ ∧
    smallRegionState.x = 70 ∧ smallRegionState.y = 10 ∧
    smallRegionState.w = 0 ∧ smallRegionState.h = 0 ∧
    (120 : Int) > smallRegionState.range.w ∧
    smallRegionState.CameraFollow ⟨0, 0, 120, 120⟩ = ⟨-20, 0, 120, 120⟩ ∧
    (smallRegionState.CameraFollow ⟨0, 0, 120, 120⟩).x
      = smallRegionState.range.x + smallRegionState.range.w - 120 ∧
    (smallRegionState.CameraFollow ⟨0, 0, 120, 120⟩).x ≠ smallRegionState.range.x := by
  decide

/-- C20 (amended): for a camera wider than a region whose low edge is at 0
(`range.x = 0`), `CameraFollow` sets `camera.x` to the low edge of the region
when the centred coordinate `x + w/2 - camera.w/2` is negative, and to the
high-edge-aligned value `range.x + range.w - camera.w` when the centred
coordinate is not negative; symmetrically for `camera.y` when the camera is
higher than a region with `range.y = 0`. -/
theorem CameraFollow_wide (s : MovableTexture) (camera : SDL_Rect) :
    (camera.w > s.range.w → s.range.x = 0 →
      (s.x + Int.tdiv s.w 2 - Int.tdiv camera.w 2 < 0 →
        (s.CameraFollow camera).x = s.range.x) ∧
      (0 ≤ s.x + Int.tdiv s.w 2 - Int.tdiv camera.w 2 →
        (s.CameraFollow camera).x = s.range.x + s.range.w - camera.w)) ∧
    (camera.h > s.range.h → s.range.y = 0 →
      (s.y + Int.tdiv s.h 2 - Int.tdiv camera.h 2 < 0 →
        (s.CameraFollow camera).y = s.range.y) ∧
      (0 ≤ s.y + Int.tdiv s.h 2 - Int.tdiv camera.h 2 →
        (s.CameraFollow camera).y = s.range.y + s.range.h - camera.h)) := by
  rw [CameraFollow_eq]
  simp only
  refine ⟨fun hwide h0 => ⟨fun h => ?_, fun h => ?_⟩, fun hhigh h0 => ⟨fun h => ?_, fun h => ?_⟩⟩
  · rw [if_pos h, h0]
  · rw [if_neg (by omega), if_pos (by omega)]
  · rw [if_pos h, h0]
  · rw [if_neg (by omega), if_pos (by omega)]

/-- C20 (amended) on `smallRegionState` (region `{0,0,100,100}`) with a
120 x 120 camera: the centred camera is at `(10,-50)`, so `camera.x` is the
high-edge-aligned `-20` and `camera.y` is the low edge 0 of the region. -/
theorem CameraFollow_wide_witness :
    (smallRegionState.CameraFollow ⟨0, 0, 120, 120⟩).x
      = smallRegionState.range.x + smallRegionState.range.w - 120 ∧
    (smallRegionState.CameraFollow ⟨0, 0, 120, 120⟩).y = smallRegionState.range.y :=
  ⟨((CameraFollow_wide smallRegionState ⟨0, 0, 120, 120⟩).1 (by decide) (by decide)).2
      (by decide),
   ((CameraFollow_wide smallRegionState ⟨0, 0, 120, 120⟩).2 (by decide) (by decide)).1
      (by decide)⟩

/-! ## Reachable timer states -/

theorem Timer_run_cons (s : Timer) (op : TimerOp) (ops : List TimerOp) :
    s.run (op :: ops) = (s.apply op).run ops := rfl

theorem Timer_apply_flags (s : Timer) (op : TimerOp)
    (h : s.started = false → s.paused = true) :
    (s.apply op).started = false → (s.apply op).paused = true := by
  cases op <;>
    simp only [Timer.apply, Timer.Start, Timer.Stop, Timer.Pause, Timer.Resume, Timer.Reset] <;>
    cases hs : s.started <;> cases hp : s.paused <;> simp_all

theorem Timer_run_flags (ops : List TimerOp) :
    ∀ s : Timer, (s.started = false → s.paused = true) →
      (s.run ops).started = false → (s.run ops).paused = true := by
  induction ops with
  | nil => intro s h; exact h
  | cons op rest ih =>
    intro s h
    rw [Timer_run_cons]
    exact ih (s.apply op) (Timer_apply_flags s op h)

/-- C21: in every state reachable from the constructor by a sequence of
`Start`, `Stop`, `Pause`, `Resume` and `Reset` at arbitrary clock readings,
`started = false` implies `paused = true`; and `Reset` leaves exactly
`started = false`, `paused = true`, `TicksPlaying = 0`, `TicksNotPlaying = 0`,
whatever the state before. -/
theorem Timer_reachable_configurations (ops : List TimerOp) (s : Timer) :
    ((Timer.new.run ops).started = false → (Timer.new.run ops).paused = true) ∧
    s.Reset = { started := false, paused := true, TicksPlaying := 0, TicksNotPlaying := 0 } ∧
    (s.run (ops ++ [TimerOp.Reset]))
      = { started := false, paused := true, TicksPlaying := 0, TicksNotPlaying := 0 } := by
  refine ⟨Timer_run_flags ops Timer.new (fun _ => rfl), rfl, ?_⟩
  simp [Timer.run, List.foldl_append, Timer.apply, Timer.Reset]

/-- C21 on `Start` at 5 ms, `Pause` at 7 ms, `Stop` at 9 ms: the timer is not
started and is paused. -/
theorem Timer_reachable_configurations_witness :
    (Timer.new.run [TimerOp.Start 5, TimerOp.Pause 7, TimerOp.Stop 9]).started = false ∧
    (Timer.new.run [TimerOp.Start 5, TimerOp.Pause 7, TimerOp.Stop 9]).paused = true :=
  ⟨by decide,
   (Timer_reachable_configurations [TimerOp.Start 5, TimerOp.Pause 7, TimerOp.Stop 9]
      Timer.new).1 (by decide)⟩

/-! ## Elapsed time against the clock -/

theorem chain_le_last (now : Int) :
    ∀ (l : List Int) (T : Int), List.Chain (· ≤ ·) T (l ++ [now]) → T ≤ now := by
  intro l
  induction l with
  | nil =>
    intro T h
    simp only [List.nil_append, List.chain_cons, List.Chain.nil, and_true] at h
    exact h
  | cons a rest ih =>
    intro T h
    simp only [List.cons_append, List.chain_cons] at h
    exact le_trans h.1 (ih a h.2)

/-- Both tick fields lie between 0 and the clock reading `T`. -/
theorem Timer_apply_ticks (s : Timer) (op : TimerOp) (T t : Int)
    (hop : op.time = some t) (hle : T ≤ t) (hfit : t < 2147483648)
    (h : 0 ≤ s.TicksPlaying ∧ s.TicksPlaying ≤ T ∧ 0 ≤ s.TicksNotPlaying ∧
      s.TicksNotPlaying ≤ T) :
    0 ≤ (s.apply op).TicksPlaying ∧ (s.apply op).TicksPlaying ≤ t ∧
    0 ≤ (s.apply op).TicksNotPlaying ∧ (s.apply op).TicksNotPlaying ≤ t := by
  obtain ⟨h1, h2, h3, h4⟩ := h
  cases op with
  | Reset => simp [TimerOp.time] at hop
  | Start now =>
    simp only [TimerOp.time, Option.some.injEq] at hop
    subst hop
    simp only [Timer.apply, Timer.Start]
    split
    · simp only
      refine ⟨h1, by omega, ?_, ?_⟩ <;> (unfold toInt32; omega)
    · exact ⟨h1, by omega, h3, by omega⟩
  | Stop now =>
    simp only [TimerOp.time, Option.some.injEq] at hop
    subst hop
    simp only [Timer.apply, Timer.Stop]
    split
    · simp only
      split
      · refine ⟨?_, ?_, h3, by omega⟩ <;> (unfold toInt32; omega)
      · exact ⟨h1, by omega, h3, by omega⟩
    · exact ⟨h1, by omega, h3, by omega⟩
  | Pause now =>
    simp only [TimerOp.time, Option.some.injEq] at hop
    subst hop
    simp only [Timer.apply, Timer.Pause]
    split
    · simp only
      refine ⟨?_, ?_, h3, by omega⟩ <;> (unfold toInt32; omega)
    · exact ⟨h1, by omega, h3, by omega⟩
  | Resume now =>
    simp only [TimerOp.time, Option.some.injEq] at hop
    subst hop
    simp only [Timer.apply, Timer.Resume]
    split
    · simp only
      refine ⟨h1, by omega, ?_, ?_⟩ <;> (unfold toInt32; omega)
    · exact ⟨h1, by omega, h3, by omega⟩

theorem Timer_run_GetTime (now : Int) (hfit : now < 2147483648) :
    ∀ (ops : List TimerOp) (s : Timer) (T : Int), 0 ≤ T →
      (0 ≤ s.TicksPlaying ∧ s.TicksPlaying ≤ T ∧ 0 ≤ s.TicksNotPlaying ∧
        s.TicksNotPlaying ≤ T) →
      List.Chain (· ≤ ·) T (ops.filterMap TimerOp.time ++ [now]) →
      0 ≤ (s.run ops).GetTime now ∧ (s.run ops).GetTime now ≤ now := by
  intro ops
  induction ops with
  | nil =>
    intro s T hT h hch
    have hle : T ≤ now := chain_le_last now [] T hch
    simp only [Timer.run, List.foldl_nil, Timer.GetTime]
    split
    · unfold toInt32; omega
    · omega
  | cons op rest ih =>
    intro s T hT h hch
    rw [Timer_run_cons]
    cases hop : op.time with
    | none =>
      have hreset : op = TimerOp.Reset := by
        cases op <;> simp [TimerOp.time] at hop
        rfl
      subst hreset
      simp only [List.filterMap_cons, hop] at hch
      exact ih _ T hT (by simp [Timer.apply, Timer.Reset, hT]) hch
    | some t =>
      simp only [List.filterMap_cons, hop, List.cons_append, List.chain_cons] at hch
      have hle : t ≤ now := chain_le_last now _ t hch.2
      exact ih _ t (by omega)
        (Timer_apply_ticks s op T t hop hch.1 (by omega) h) hch.2

/-- C24: elapsed time is bounded by the clock.  For every sequence of `Start`,
`Stop`, `Pause`, `Resume` and `Reset` applied from the constructor state at
non-negative, non-decreasing clock readings, and every later clock reading
`now` that fits an `int` (no overflow), `0 ≤ GetTime(now) ≤ now`. -/
theorem GetTime_bounded_by_clock (ops : List TimerOp) (now : Int)
    (hclock : List.Chain (· ≤ ·) 0 (ops.filterMap TimerOp.time ++ [now]))
    (hfit : now < 2147483648) :
    0 ≤ (Timer.new.run ops).GetTime now ∧ (Timer.new.run ops).GetTime now ≤ now :=
  Timer_run_GetTime now hfit ops Timer.new 0 (le_refl 0)
    (by simp [Timer.new]) hclock

/-- C24 on `Start` at 10 ms, `Pause` at 60 ms, `Resume` at 1060 ms, read at
1070 ms: the timer reads 60 ms. -/
theorem GetTime_bounded_by_clock_witness :
    (Timer.new.run [TimerOp.Start 10, TimerOp.Pause 60, TimerOp.Resume 1060]).GetTime 1070
      = 60 ∧
    (0 : Int) ≤ (Timer.new.run
      [TimerOp.Start 10, TimerOp.Pause 60, TimerOp.Resume 1060]).GetTime 1070 ∧
    (Timer.new.run [TimerOp.Start 10, TimerOp.Pause 60, TimerOp.Resume 1060]).GetTime 1070
      ≤ 1070 :=
  ⟨by decide,
   GetTime_bounded_by_clock [TimerOp.Start 10, TimerOp.Pause 60, TimerOp.Resume 1060] 1070
     (by simp [TimerOp.time]) (by decide)⟩

/-! ## What `Move` keeps -/

theorem moveBoxesLoop_sizes (x y : Int) :
    ∀ (boxes : List SDL_Rect) (delta : List SDL_Point) (bs : List SDL_Rect),
      moveBoxesLoop x y boxes delta = some bs →
      List.Forall₂ (fun (b2 b : SDL_Rect) => b2.w = b.w ∧ b2.h = b.h) bs boxes := by
  intro boxes
  induction boxes with
  | nil =>
    intro delta bs h
    simp [moveBoxesLoop] at h
    subst h
    exact List.Forall₂.nil
  | cons b rest ih =>
    intro delta bs h
    cases delta with
    | nil => simp [moveBoxesLoop] at h
    | cons d ds =>
      simp only [moveBoxesLoop, Option.map_eq_some'] at h
      obtain ⟨r, hr, hbs⟩ := h
      subst hbs
      exact List.Forall₂.cons ⟨rfl, rfl⟩ (ih ds r hr)

/-- The X phase with everything it leaves alone. -/
theorem MoveX_frame (s : MovableTexture) (hlen : s.boxes.length ≤ s.delta.length) :
    ∃ sx, s.MoveX = some sx ∧ sx.toTexture = s.toTexture ∧ sx.y = s.y ∧
      sx.range = s.range ∧ sx.delta = s.delta ∧
      sx.velocity_x = s.velocity_x ∧ sx.velocity_y = s.velocity_y ∧
      moveBoxesLoop sx.x sx.y s.boxes s.delta = some sx.boxes ∧
      (∀ moved, moveBoxesLoop (s.x + s.velocity_x) s.y s.boxes s.delta = some moved →
        sx.x = if InsideCollidedVec moved s.range = true then s.x
               else s.x + s.velocity_x) := by
  obtain ⟨moved, hmoved⟩ :=
    moveBoxesLoop_isSome (s.x + s.velocity_x) s.y s.boxes s.delta hlen
  rw [MoveX_eq s moved hmoved]
  have hx : s.x + s.velocity_x - s.velocity_x = s.x := by omega
  by_cases hc : InsideCollidedVec moved s.range = true
  · obtain ⟨bs2, hbs2⟩ := moveBoxesLoop_isSome s.x s.y s.boxes s.delta hlen
    rw [if_pos hc, hx, hbs2]
    refine ⟨{ s with x := s.x, boxes := bs2 }, rfl, rfl, rfl, rfl, rfl, rfl, rfl, hbs2, ?_⟩
    intro moved2 h2
    rw [hmoved] at h2
    cases h2
    rw [if_pos hc]
  · rw [if_neg hc]
    refine ⟨{ s with x := s.x + s.velocity_x, boxes := moved }, rfl, rfl, rfl, rfl, rfl, rfl,
      rfl, hmoved, ?_⟩
    intro moved2 h2
    rw [hmoved] at h2
    cases h2
    rw [if_neg hc]

/-- The Y phase with everything it leaves alone. -/
theorem MoveY_frame (s : MovableTexture) (hlen : s.boxes.length ≤ s.delta.length) :
    ∃ s2, s.MoveY = some s2 ∧ s2.toTexture = s.toTexture ∧ s2.x = s.x ∧
      s2.range = s.range ∧ s2.delta = s.delta ∧
      s2.velocity_x = s.velocity_x ∧ s2.velocity_y = s.velocity_y ∧
      moveBoxesLoop s2.x s2.y s.boxes s.delta = some s2.boxes ∧
      (∀ moved, moveBoxesLoop s.x (s.y + s.velocity_y) s.boxes s.delta = some moved →
        s2.y = if InsideCollidedVec moved s.range = true then s.y
               else s.y + s.velocity_y) := by
  obtain ⟨moved, hmoved⟩ :=
    moveBoxesLoop_isSome s.x (s.y + s.velocity_y) s.boxes s.delta hlen
  rw [MoveY_eq s moved hmoved]
  have hy : s.y + s.velocity_y - s.velocity_y = s.y := by omega
  by_cases hc : InsideCollidedVec moved s.range = true
  · obtain ⟨bs2, hbs2⟩ := moveBoxesLoop_isSome s.x s.y s.boxes s.delta hlen
    rw [if_pos hc, hy, hbs2]
    refine ⟨{ s with y := s.y, boxes := bs2 }, rfl, rfl, rfl, rfl, rfl, rfl, rfl, hbs2, ?_⟩
    intro moved2 h2
    rw [hmoved] at h2
    cases h2
    rw [if_pos hc]
  · rw [if_neg hc]
    refine ⟨{ s with y := s.y + s.velocity_y, boxes := moved }, rfl, rfl, rfl, rfl, rfl, rfl,
      rfl, hmoved, ?_⟩
    intro moved2 h2
    rw [hmoved] at h2
    cases h2
    rw [if_neg hc]

/-- `Move` as a whole: it returns, keeps texture size, region, offsets and
velocity, leaves the boxes recomputed from the old ones at the final anchor,
and resolves the Y step at the anchor x left by the X phase. -/
theorem Move_frame (s : MovableTexture) (hlen : s.boxes.length ≤ s.delta.length) :
    ∃ sx s2, s.MoveX = some sx ∧ s.Move = some s2 ∧
      s2.toTexture = s.toTexture ∧ s2.range = s.range ∧ s2.delta = s.delta ∧
      s2.velocity_x = s.velocity_x ∧ s2.velocity_y = s.velocity_y ∧
      moveBoxesLoop s2.x s2.y s.boxes s.delta = some s2.boxes ∧
      s2.x = sx.x ∧
      (∀ moved, moveBoxesLoop (s.x + s.velocity_x) s.y s.boxes s.delta = some moved →
        sx.x = if InsideCollidedVec moved s.range = true then s.x
               else s.x + s.velocity_x) ∧
      (∀ moved, moveBoxesLoop sx.x (s.y + s.velocity_y) s.boxes s.delta = some moved →
        s2.y = if InsideCollidedVec moved s.range = true then s.y
               else s.y + s.velocity_y) := by
  obtain ⟨sx, hsx, hxt, hxy, hxr, hxd, hxvx, hxvy, hxb, hxx⟩ := MoveX_frame s hlen
  have hlenx : sx.boxes.length ≤ sx.delta.length := by
    rw [moveBoxesLoop_length _ _ _ _ _ hxb, hxd]
    exact hlen
  obtain ⟨s2, hs2, hyt, hyx, hyr, hyd, hyvx, hyvy, hyb, hyy⟩ := MoveY_frame sx hlenx
  refine ⟨sx, s2, hsx, by simp [MovableTexture.Move, hsx, hs2], hyt.trans hxt,
    hyr.trans hxr, hyd.trans hxd, hyvx.trans hxvx, hyvy.trans hxvy, ?_, hyx, hxx, ?_⟩
  · rw [hxd, moveBoxesLoop_again _ _ _ _ _ _ _ hxb] at hyb
    exact hyb
  · intro moved hm
    have h := hyy moved (by
      rw [hxd, hxy, hxvy, moveBoxesLoop_again _ _ _ _ _ _ _ hxb]
      exact hm)
    rw [hxr, hxy, hxvy] at h
    exact h

/-- C23: the Y phase of `Move()` is resolved against the anchor left by the X
phase.  In a state with at least as many offsets as boxes `Move()` returns;
writing `sx.x` for the anchor x after the X phase and `movedY` for the boxes
recomputed at `(sx.x, y + velocity_y)`, the anchor after `Move()` is
`(sx.x, y + velocity_y)` if `InsideCollided(movedY, range)` is false and
`(sx.x, y)` otherwise.  In particular, when the X step is rolled back and the Y
step at the original `x` is not violating, `Move()` ends at
`(x, y + velocity_y)`.  `Move()` changes neither the velocity, nor the region,
nor the offsets, nor the size of any box. -/
theorem Move_y_after_x (s : MovableTexture) (hlen : s.boxes.length ≤ s.delta.length) :
    ∃ sx s2 movedY, s.MoveX = some sx ∧ s.Move = some s2 ∧
      moveBoxesLoop sx.x (s.y + s.velocity_y) s.boxes s.delta = some movedY ∧
      s2.x = sx.x ∧
      s2.y = (if InsideCollidedVec movedY s.range = true then s.y
              else s.y + s.velocity_y) ∧
      (∀ movedX movedY0,
        moveBoxesLoop (s.x + s.velocity_x) s.y s.boxes s.delta = some movedX →
        InsideCollidedVec movedX s.range = true →
        moveBoxesLoop s.x (s.y + s.velocity_y) s.boxes s.delta = some movedY0 →
        InsideCollidedVec movedY0 s.range = false →
        s2.x = s.x ∧ s2.y = s.y + s.velocity_y) ∧
      s2.velocity_x = s.velocity_x ∧ s2.velocity_y = s.velocity_y ∧
      s2.range = s.range ∧ s2.delta = s.delta ∧
      List.Forall₂ (fun (b2 b : SDL_Rect) => b2.w = b.w ∧ b2.h = b.h) s2.boxes s.boxes := by
  obtain ⟨sx, s2, hsx, hs2, -, hr, hd, hvx, hvy, hb, hx, hxx, hyy⟩ := Move_frame s hlen
  obtain ⟨movedY, hmovedY⟩ :=
    moveBoxesLoop_isSome sx.x (s.y + s.velocity_y) s.boxes s.delta hlen
  refine ⟨sx, s2, movedY, hsx, hs2, hmovedY, hx, hyy movedY hmovedY, ?_, hvx, hvy, hr, hd,
    moveBoxesLoop_sizes _ _ _ _ _ hb⟩
  intro movedX movedY0 hmx hcx hmy hcy
  have hsxx : sx.x = s.x := by rw [hxx movedX hmx, if_pos hcx]
  refine ⟨hx.trans hsxx, ?_⟩
  rw [hsxx] at hyy
  rw [hyy movedY0 hmy, if_neg (by simp [hcy])]

/-- C23 on `slidingState`: the X step to `x = 21` is rolled back, the Y step to
`y = 4` at the original `x = 1` is taken. -/
theorem Move_y_after_x_witness :
    slidingState.Move = some { slidingState with y := 4, boxes := [⟨1, 4, 3, 3⟩] } ∧
    ∃ sx s2 movedY, slidingState.MoveX = some sx ∧ slidingState.Move = some s2 ∧
      moveBoxesLoop sx.x (slidingState.y + slidingState.velocity_y) slidingState.boxes
        slidingState.delta = some movedY ∧
      s2.x = sx.x ∧
      s2.y = (if InsideCollidedVec movedY slidingState.range = true then slidingState.y
              else slidingState.y + slidingState.velocity_y) ∧
      (∀ movedX movedY0,
        moveBoxesLoop (slidingState.x + slidingState.velocity_x) slidingState.y
          slidingState.boxes slidingState.delta = some movedX →
        InsideCollidedVec movedX slidingState.range = true →
        moveBoxesLoop slidingState.x (slidingState.y + slidingState.velocity_y)
          slidingState.boxes slidingState.delta = some movedY0 →
        InsideCollidedVec movedY0 slidingState.range = false →
        s2.x = slidingState.x ∧ s2.y = slidingState.y + slidingState.velocity_y) ∧
      s2.velocity_x = slidingState.velocity_x ∧ s2.velocity_y = slidingState.velocity_y ∧
      s2.range = slidingState.range ∧ s2.delta = slidingState.delta ∧
      List.Forall₂ (fun (b2 b : SDL_Rect) => b2.w = b.w ∧ b2.h = b.h)
        s2.boxes slidingState.boxes :=
  ⟨by decide, Move_y_after_x slidingState (by decide)⟩

/-! ## The box cluster under `Move` and `HandleEvent` -/

theorem HandleEvent_frame (s : MovableTexture) (event : SDL_Event) :
    (s.HandleEvent event).toTexture = s.toTexture ∧ (s.HandleEvent event).x = s.x ∧
    (s.HandleEvent event).y = s.y ∧ (s.HandleEvent event).range = s.range ∧
    (s.HandleEvent event).boxes = s.boxes ∧ (s.HandleEvent event).delta = s.delta := by
  unfold MovableTexture.HandleEvent
  simp only
  split_ifs <;> exact ⟨rfl, rfl, rfl, rfl, rfl, rfl⟩

/-- Recomputing the boxes built from `input` at one anchor gives the boxes
built from `input` at the other. -/
theorem moveBoxesLoop_map (x0 y0 x y : Int) (input : List SDL_Rect) :
    moveBoxesLoop x y
      (input.map fun b => ({ x := x0 + b.x, y := y0 + b.y, w := b.w, h := b.h } : SDL_Rect))
      (input.map fun b => ({ x := b.x, y := b.y } : SDL_Point))
    = some (input.map fun b => ({ x := x + b.x, y := y + b.y, w := b.w, h := b.h } : SDL_Rect))
    := by
  induction input with
  | nil => rfl
  | cons b rest ih => simp [moveBoxesLoop, ih]

theorem run_keeps_cluster (input : List SDL_Rect) (ops : List EntityOp) :
    ∀ s : MovableTexture,
      s.delta = input.map (fun b => ({ x := b.x, y := b.y } : SDL_Point)) →
      s.boxes = input.map
        (fun b => ({ x := s.x + b.x, y := s.y + b.y, w := b.w, h := b.h } : SDL_Rect)) →
      ∃ s2, s.run ops = some s2 ∧
        s2.delta = input.map (fun b => ({ x := b.x, y := b.y } : SDL_Point)) ∧
        s2.boxes = input.map
          (fun b => ({ x := s2.x + b.x, y := s2.y + b.y, w := b.w, h := b.h } : SDL_Rect)) := by
  induction ops with
  | nil => intro s hd hb; exact ⟨s, rfl, hd, hb⟩
  | cons op rest ih =>
    intro s hd hb
    cases op with
    | Move =>
      have hlen : s.boxes.length ≤ s.delta.length := by simp [hd, hb]
      obtain ⟨sx, s1, -, hs1, -, -, hd1, -, -, hb1, -⟩ := Move_frame s hlen
      rw [hd, hb, moveBoxesLoop_map] at hb1
      obtain ⟨s2, hs2, h2⟩ := ih s1 (hd1.trans hd) (Option.some.inj hb1).symm
      exact ⟨s2, by simp [MovableTexture.run, MovableTexture.apply, hs1, hs2], h2⟩
    | HandleEvent event =>
      obtain ⟨-, hx, hy, -, hbx, hdx⟩ := HandleEvent_frame s event
      obtain ⟨s2, hs2, h2⟩ := ih (s.HandleEvent event) (hdx.trans hd)
        (by rw [hbx, hx, hy]; exact hb)
      exact ⟨s2, by simp [MovableTexture.run, MovableTexture.apply, hs2], h2⟩

/-- C22: the box cluster stays rigidly attached.  After `CreateFromTexture` on
a freshly constructed `MovableTexture` (texture size `0 x 0`, or any size
`size` when an image was loaded into it, so that key events change the
velocity and `Move()` displaces the anchor) with anchor point `p` and the
offset rectangles `input`, every sequence of `Move()` and `HandleEvent()` calls
returns, and then `boxes` and `delta` both have the length of `input`,
`delta[i]` is the `(x, y)` of `input[i]`, and `boxes[i]` is
`{x + input[i].x, y + input[i].y, input[i].w, input[i].h}` for the current
anchor `(x, y)`. -/
theorem boxes_stay_attached (range0 : SDL_Rect) (size texture : Texture) (p : SDL_Point)
    (range : SDL_Rect) (input : List SDL_Rect) (ops : List EntityOp) :
    ({ MovableTexture.new range0 with toTexture := ⟨0, 0⟩ } = MovableTexture.new range0) ∧
    ∃ s, (({ MovableTexture.new range0 with toTexture := size }).CreateFromTexture
        texture p range input).run ops = some s ∧
      s.boxes.length = input.length ∧ s.delta.length = input.length ∧
      s.delta = input.map (fun b => ({ x := b.x, y := b.y } : SDL_Point)) ∧
      s.boxes = input.map
        (fun b => ({ x := s.x + b.x, y := s.y + b.y, w := b.w, h := b.h } : SDL_Rect)) := by
  obtain ⟨s, hs, hd, hb⟩ := run_keeps_cluster input ops
    (({ MovableTexture.new range0 with toTexture := size }).CreateFromTexture
      texture p range input)
    (by simp [MovableTexture.CreateFromTexture, MovableTexture.new])
    (by simp [MovableTexture.CreateFromTexture, MovableTexture.new])
  exact ⟨rfl, s, hs, by rw [hb, List.length_map], by rw [hd, List.length_map], hd, hb⟩

/-- C22 on a 30 x 30 texture created at `(1,1)` with two boxes: after a
key-down of D and three `Move()` calls the anchor is at `(7,1)` (two steps of 3
taken, the third rolled back) and both boxes have followed it. -/
theorem boxes_stay_attached_witness :
    (({ MovableTexture.new ⟨0, 0, 0, 0⟩ with toTexture := ⟨30, 30⟩ }).CreateFromTexture
        ⟨30, 30⟩ ⟨1, 1⟩ ⟨0, 0, 10, 10⟩ [⟨0, 0, 3, 3⟩, ⟨1, 1, 2, 2⟩]).run
      [EntityOp.HandleEvent ⟨SDL_KEYDOWN, 0, SDLK_d⟩, EntityOp.Move, EntityOp.Move,
       EntityOp.Move]
    = some { w := 30, h := 30, x := 7, y := 1, range := ⟨0, 0, 10, 10⟩,
             boxes := [⟨7, 1, 3, 3⟩, ⟨8, 2, 2, 2⟩], delta := [⟨0, 0⟩, ⟨1, 1⟩],
             velocity_x := 3, velocity_y := 0 } ∧
    ∃ s, (({ MovableTexture.new ⟨0, 0, 0, 0⟩ with toTexture := ⟨30, 30⟩ }).CreateFromTexture
        ⟨30, 30⟩ ⟨1, 1⟩ ⟨0, 0, 10, 10⟩ [⟨0, 0, 3, 3⟩, ⟨1, 1, 2, 2⟩]).run
      [EntityOp.HandleEvent ⟨SDL_KEYDOWN, 0, SDLK_d⟩, EntityOp.Move, EntityOp.Move,
       EntityOp.Move] = some s ∧
      s.boxes.length = 2 ∧ s.delta.length = 2 ∧
      s.delta = [(⟨0, 0, 3, 3⟩ : SDL_Rect), ⟨1, 1, 2, 2⟩].map
        (fun b => ({ x := b.x, y := b.y } : SDL_Point)) ∧
      s.boxes = [(⟨0, 0, 3, 3⟩ : SDL_Rect), ⟨1, 1, 2, 2⟩].map
        (fun b => ({ x := s.x + b.x, y := s.y + b.y, w := b.w, h := b.h } : SDL_Rect)) :=
  ⟨by decide,
   (boxes_stay_attached ⟨0, 0, 0, 0⟩ ⟨30, 30⟩ ⟨30, 30⟩ ⟨1, 1⟩ ⟨0, 0, 10, 10⟩
     [⟨0, 0, 3, 3⟩, ⟨1, 1, 2, 2⟩]
     [EntityOp.HandleEvent ⟨SDL_KEYDOWN, 0, SDLK_d⟩, EntityOp.Move, EntityOp.Move,
      EntityOp.Move]).2⟩

/-- The cluster stays attached as well when the entity was given a texture of
any size before its creation, so that key events change the velocity and
`Move()` displaces the anchor. -/
theorem boxes_stay_attached_sized (range0 : SDL_Rect) (size texture : Texture)
    (p : SDL_Point) (range : SDL_Rect) (input : List SDL_Rect) (ops : List EntityOp) :
    ∃ s, (({ MovableTexture.new range0 with toTexture := size }).CreateFromTexture
        texture p range input).run ops = some s ∧
      s.delta = input.map (fun b => ({ x := b.x, y := b.y } : SDL_Point)) ∧
      s.boxes = input.map
        (fun b => ({ x := s.x + b.x, y := s.y + b.y, w := b.w, h := b.h } : SDL_Rect)) :=
  run_keeps_cluster input ops _
    (by simp [MovableTexture.CreateFromTexture, MovableTexture.new])
    (by simp [MovableTexture.CreateFromTexture, MovableTexture.new])

/-- A run on a 30 x 30 texture: after a key-down of D the entity advances by 3
twice and the third step, which would leave `{0,0,10,10}`, is rolled back. -/
theorem run_three_moves :
    (({ MovableTexture.new ⟨0, 0, 0, 0⟩ with toTexture := ⟨30, 30⟩ }).CreateFromTexture
        ⟨30, 30⟩ ⟨1, 1⟩ ⟨0, 0, 10, 10⟩ [⟨0, 0, 3, 3⟩, ⟨1, 1, 2, 2⟩]).run
      [EntityOp.HandleEvent ⟨SDL_KEYDOWN, 0, SDLK_d⟩, EntityOp.Move, EntityOp.Move,
       EntityOp.Move]
    = some { w := 30, h := 30, x := 7, y := 1, range := ⟨0, 0, 10, 10⟩,
             boxes := [⟨7, 1, 3, 3⟩, ⟨8, 2, 2, 2⟩], delta := [⟨0, 0⟩, ⟨1, 1⟩],
             velocity_x := 3, velocity_y := 0 } := by decide

/-! ## Cutting a texture into clips -/

theorem foldl_set_length {α : Type} (idx : Nat → Nat) (f : Nat → α) :
    ∀ (js : List Nat) (l : List α),
      (js.foldl (fun c j => c.set (idx j) (f j)) l).length = l.length := by
  intro js
  induction js with
  | nil => intro l; rfl
  | cons j rest ih => intro l; simp [List.foldl_cons, ih]

/-- One row of writes: the cells `base .. base + N - 1` get `f 0 .. f (N-1)`,
the other cells are kept. -/
theorem foldl_set_range (f : Nat → SDL_Rect) (base : Nat) :
    ∀ (N : Nat) (l : List SDL_Rect) (k : Nat),
      ((List.range N).foldl (fun c j => c.set (base + j) (f j)) l)[k]? =
        if base ≤ k ∧ k < base + N ∧ k < l.length then some (f (k - base)) else l[k]? := by
  intro N
  induction N with
  | zero =>
    intro l k
    have hno : ¬ (base ≤ k ∧ k < base + 0 ∧ k < l.length) := by omega
    rw [if_neg hno]
    rfl
  | succ N ih =>
    intro l k
    rw [List.range_succ, List.foldl_append]
    simp only [List.foldl_cons, List.foldl_nil]
    rw [List.getElem?_set, foldl_set_length, ih l k]
    by_cases hk : base + N = k
    · subst hk
      by_cases hlen : base + N < l.length
      · have h1 : base ≤ base + N ∧ base + N < base + (N + 1) ∧ base + N < l.length := by
          omega
        have h2 : base + N - base = N := by omega
        simp [hlen, h1, h2]
      · have h1 : ¬ (base ≤ base + N ∧ base + N < base + (N + 1) ∧ base + N < l.length) := by
          omega
        have h3 : l[base + N]? = none := List.getElem?_eq_none (by omega)
        simp [hlen, h1, h3]
    · rw [if_neg hk]
      by_cases h1 : base ≤ k ∧ k < base + N ∧ k < l.length
      · have h2 : base ≤ k ∧ k < base + (N + 1) ∧ k < l.length := by omega
        rw [if_pos h1, if_pos h2]
      · have h2 : ¬ (base ≤ k ∧ k < base + (N + 1) ∧ k < l.length) := by omega
        rw [if_neg h1, if_neg h2]

theorem foldl_rows_length (g : Nat → Nat → SDL_Rect) (N : Nat) :
    ∀ (rows : List Nat) (l : List SDL_Rect),
      (rows.foldl (fun c row =>
        (List.range N).foldl (fun c col => c.set (row * N + col) (g row col)) c) l).length
        = l.length := by
  intro rows
  induction rows with
  | nil => intro l; rfl
  | cons row rest ih =>
    intro l
    rw [List.foldl_cons, ih, foldl_set_length]

/-- All rows of writes: the cell `k < M * N` gets the clip of row `k / N` and
column `k % N`, the other cells are kept. -/
theorem foldl_rows (g : Nat → Nat → SDL_Rect) (N : Nat) (hN : 0 < N) :
    ∀ (M : Nat) (l : List SDL_Rect) (k : Nat),
      ((List.range M).foldl (fun c row =>
        (List.range N).foldl (fun c col => c.set (row * N + col) (g row col)) c) l)[k]? =
        if k < M * N ∧ k < l.length then some (g (k / N) (k % N)) else l[k]? := by
  intro M
  induction M with
  | zero =>
    intro l k
    have hno : ¬ (k < 0 * N ∧ k < l.length) := by omega
    rw [if_neg hno]
    rfl
  | succ M ih =>
    intro l k
    rw [List.range_succ, List.foldl_append]
    simp only [List.foldl_cons, List.foldl_nil]
    rw [foldl_set_range (g M) (M * N) N, foldl_rows_length, ih l k]
    have hsucc : (M + 1) * N = M * N + N := Nat.succ_mul M N
    rw [hsucc]
    by_cases hblock : M * N ≤ k ∧ k < M * N + N ∧ k < l.length
    · have hdiv : k / N = M := Nat.div_eq_of_lt_le hblock.1 (by rw [hsucc]; exact hblock.2.1)
      have hmod : k % N = k - M * N := by
        have h := Nat.div_add_mod k N
        rw [hdiv, Nat.mul_comm] at h
        omega
      rw [if_pos hblock, if_pos ⟨hblock.2.1, hblock.2.2⟩, hdiv, hmod]
    · rw [if_neg hblock]
      by_cases hlow : k < M * N ∧ k < l.length
      · rw [if_pos hlow, if_pos ⟨by omega, hlow.2⟩]
      · rw [if_neg hlow, if_neg (by omega)]

/-- `Cut` for positive `m` and `n`: it returns `m * n` clips, and the clip in
cell `k` is the one of row `k / n` and column `k % n`. -/
theorem Cut_cells (t : Texture) (M N : Nat) (hw : 0 ≤ t.w) (hh : 0 ≤ t.h)
    (hM : 0 < M) (hN : 0 < N) :
    ∃ clips, t.Cut (M : Int) (N : Int) = some clips ∧ clips.length = M * N ∧
      ∀ k, k < M * N →
        clips[k]? = some
          { x := ((k % N : Nat) : Int) * (t.w / (N : Int))
            y := ((k / N : Nat) : Int) * (t.h / (M : Int))
            w := t.w / (N : Int)
            h := t.h / (M : Int) } := by
  have hw2 : Int.tdiv t.w (N : Int) = t.w / (N : Int) := Int.tdiv_eq_ediv hw (by omega)
  have hh2 : Int.tdiv t.h (M : Int) = t.h / (M : Int) := Int.tdiv_eq_ediv hh (by omega)
  have idx : ∀ row col : Nat, ((row : Int) * (N : Int) + (col : Int)).toNat = row * N + col :=
    fun row col => by
      rw [← Nat.cast_mul, ← Nat.cast_add]
      exact Int.toNat_ofNat _
  have hnum : ((M : Int) * (N : Int)).toNat = M * N := by
    rw [← Nat.cast_mul]
    exact Int.toNat_ofNat _
  have hnonneg : ¬ ((M : Int) * (N : Int) < 0) := by
    have : (0 : Int) ≤ (M : Int) * (N : Int) := by positivity
    omega
  have hzero : ¬ ((N : Int) = 0 ∨ (M : Int) = 0) := by omega
  refine ⟨(List.range M).foldl (fun c row =>
      (List.range N).foldl (fun c col => c.set (row * N + col)
        ({ x := (col : Int) * (t.w / (N : Int)), y := (row : Int) * (t.h / (M : Int)),
           w := t.w / (N : Int), h := t.h / (M : Int) } : SDL_Rect)) c)
      (List.replicate (M * N) { x := 0, y := 0, w := 0, h := 0 }), ?_, ?_, ?_⟩
  · unfold Texture.Cut
    rw [if_neg hzero]
    simp only [if_neg hnonneg, hw2, hh2, idx, hnum, Int.toNat_ofNat]
  · rw [foldl_rows_length, List.length_replicate]
  · intro k hk
    rw [foldl_rows _ N hN M _ k, List.length_replicate, if_pos ⟨hk, hk⟩]

/-- A clip of the grid lies inside the texture rectangle. -/
theorem clip_Contained (w h : Int) (M N row col : Nat) (hw : 0 ≤ w) (hh : 0 ≤ h)
    (hrow : row < M) (hcol : col < N) :
    Contained
      { x := (col : Int) * (w / (N : Int)), y := (row : Int) * (h / (M : Int)),
        w := w / (N : Int), h := h / (M : Int) }
      { x := 0, y := 0, w := w, h := h } := by
  have hsw : 0 ≤ w / (N : Int) := Int.ediv_nonneg hw (by omega)
  have hsh : 0 ≤ h / (M : Int) := Int.ediv_nonneg hh (by omega)
  have hNw : (N : Int) * (w / (N : Int)) ≤ w := Int.mul_ediv_self_le (by omega)
  have hMh : (M : Int) * (h / (M : Int)) ≤ h := Int.mul_ediv_self_le (by omega)
  have hc : ((col : Int) + 1) * (w / (N : Int)) ≤ (N : Int) * (w / (N : Int)) :=
    mul_le_mul_of_nonneg_right (by omega) hsw
  have hr : ((row : Int) + 1) * (h / (M : Int)) ≤ (M : Int) * (h / (M : Int)) :=
    mul_le_mul_of_nonneg_right (by omega) hsh
  have hx : 0 ≤ (col : Int) * (w / (N : Int)) := mul_nonneg (by omega) hsw
  have hy : 0 ≤ (row : Int) * (h / (M : Int)) := mul_nonneg (by omega) hsh
  unfold Contained
  simp only
  refine ⟨by omega, ?_, by omega, ?_⟩
  · linarith
  · linarith

/-- Two clips of the grid in different cells do not overlap. -/
theorem clip_disjoint (sw sh : Int) (row1 col1 row2 col2 : Nat) (hsw : 0 ≤ sw) (hsh : 0 ≤ sh)
    (hne : row1 ≠ row2 ∨ col1 ≠ col2) :
    OutsideCollided
      { x := (col1 : Int) * sw, y := (row1 : Int) * sh, w := sw, h := sh }
      { x := (col2 : Int) * sw, y := (row2 : Int) * sh, w := sw, h := sh } = false := by
  rw [OutsideCollided_eq_false_iff]
  simp only
  rcases hne with hr | hc
  · rcases Nat.lt_or_gt_of_ne hr with h | h
    · right; right; left
      have : ((row1 : Int) + 1) * sh ≤ (row2 : Int) * sh :=
        mul_le_mul_of_nonneg_right (by omega) hsh
      linarith
    · right; right; right
      have : ((row2 : Int) + 1) * sh ≤ (row1 : Int) * sh :=
        mul_le_mul_of_nonneg_right (by omega) hsh
      linarith
  · rcases Nat.lt_or_gt_of_ne hc with h | h
    · left
      have : ((col1 : Int) + 1) * sw ≤ (col2 : Int) * sw :=
        mul_le_mul_of_nonneg_right (by omega) hsw
      linarith
    · right; left
      have : ((col2 : Int) + 1) * sw ≤ (col1 : Int) * sw :=
        mul_le_mul_of_nonneg_right (by omega) hsw
      linarith

theorem cell_of_row_col (M N row col : Nat) (hrow : row < M) (hcol : col < N) :
    row * N + col < M * N ∧ (row * N + col) / N = row ∧ (row * N + col) % N = col := by
  have h1 : (row + 1) * N ≤ M * N := Nat.mul_le_mul_right N hrow
  have h2 : (row + 1) * N = row * N + N := Nat.succ_mul row N
  refine ⟨by omega, Nat.div_eq_of_lt_le (by omega) (by omega), ?_⟩
  rw [Nat.add_comm, Nat.add_mul_mod_self_right]
  exact Nat.mod_eq_of_lt hcol

theorem cell_lt_of_getElem? (clips : List SDL_Rect) (k : Nat) (a : SDL_Rect)
    (h : clips[k]? = some a) : k < clips.length := by
  by_contra hk
  rw [List.getElem?_eq_none (by omega)] at h
  cases h

/-- C25: `Cut(m, n)` tiles the texture with a grid of clips.  For a texture of
size `w ≥ 0`, `h ≥ 0` and `m ≥ 1`, `n ≥ 1`, `Cut` returns exactly `m * n`
rectangles, the one at index `row * n + column` being
`{column * (w / n), row * (h / m), w / n, h / m}` (integer division); every
clip is contained in `{0, 0, w, h}` and no two clips at distinct indices
overlap according to `OutsideCollided`. -/
theorem Cut_tiles (t : Texture) (m n : Int) (hw : 0 ≤ t.w) (hh : 0 ≤ t.h)
    (hm : 1 ≤ m) (hn : 1 ≤ n) :
    ∃ clips, t.Cut m n = some clips ∧ (clips.length : Int) = m * n ∧
      (∀ row column : Nat, (row : Int) < m → (column : Int) < n →
        clips[((row : Int) * n + (column : Int)).toNat]? = some
          { x := (column : Int) * (t.w / n), y := (row : Int) * (t.h / m),
            w := t.w / n, h := t.h / m }) ∧
      (∀ c ∈ clips, Contained c { x := 0, y := 0, w := t.w, h := t.h }) ∧
      (∀ (i j : Nat) (a b : SDL_Rect), i ≠ j → clips[i]? = some a → clips[j]? = some b →
        OutsideCollided a b = false) := by
  lift m to ℕ using (by omega) with M
  lift n to ℕ using (by omega) with N
  have hM : 0 < M := by omega
  have hN : 0 < N := by omega
  obtain ⟨clips, hcut, hlen, hcell⟩ := Cut_cells t M N hw hh hM hN
  have hsw : 0 ≤ t.w / (N : Int) := Int.ediv_nonneg hw (by omega)
  have hsh : 0 ≤ t.h / (M : Int) := Int.ediv_nonneg hh (by omega)
  refine ⟨clips, hcut, by rw [hlen]; push_cast; rfl, ?_, ?_, ?_⟩
  · intro row column hr hc
    obtain ⟨h1, h2, h3⟩ := cell_of_row_col M N row column (by omega) (by omega)
    have hidx : ((row : Int) * (N : Int) + (column : Int)).toNat = row * N + column := by
      rw [← Nat.cast_mul, ← Nat.cast_add]
      exact Int.toNat_ofNat _
    rw [hidx, hcell _ h1, h2, h3]
  · intro c hc
    obtain ⟨k, hk⟩ := List.mem_iff_getElem?.1 hc
    have hkl : k < M * N := hlen ▸ cell_lt_of_getElem? clips k c hk
    rw [hcell k hkl] at hk
    cases hk
    exact clip_Contained t.w t.h M N (k / N) (k % N) hw hh
      ((Nat.div_lt_iff_lt_mul hN).2 hkl) (Nat.mod_lt k hN)
  · intro i j a b hij ha hb
    have hil : i < M * N := hlen ▸ cell_lt_of_getElem? clips i a ha
    have hjl : j < M * N := hlen ▸ cell_lt_of_getElem? clips j b hb
    rw [hcell i hil] at ha
    rw [hcell j hjl] at hb
    cases ha
    cases hb
    apply clip_disjoint _ _ _ _ _ _ hsw hsh
    by_contra hcon
    have h1 : i / N = j / N := by
      by_contra h; exact hcon (Or.inl h)
    have h2 : i % N = j % N := by
      by_contra h; exact hcon (Or.inr h)
    have hi := Nat.div_add_mod i N
    have hj := Nat.div_add_mod j N
    rw [h1, h2] at hi
    omega

/-- C25 on a 10 x 7 texture cut into 2 rows and 3 columns: six 3 x 3 clips. -/
theorem Cut_tiles_witness :
    (⟨10, 7⟩ : Texture).Cut 2 3
      = some [⟨0, 0, 3, 3⟩, ⟨3, 0, 3, 3⟩, ⟨6, 0, 3, 3⟩, ⟨0, 3, 3, 3⟩, ⟨3, 3, 3, 3⟩, ⟨6, 3, 3, 3⟩] ∧
    ∃ clips, (⟨10, 7⟩ : Texture).Cut 2 3 = some clips ∧ (clips.length : Int) = 2 * 3 ∧
      (∀ row column : Nat, (row : Int) < 2 → (column : Int) < 3 →
        clips[((row : Int) * 3 + (column : Int)).toNat]? = some
          { x := (column : Int) * ((⟨10, 7⟩ : Texture).w / 3),
            y := (row : Int) * ((⟨10, 7⟩ : Texture).h / 2),
            w := (⟨10, 7⟩ : Texture).w / 3, h := (⟨10, 7⟩ : Texture).h / 2 }) ∧
      (∀ c ∈ clips, Contained c
        { x := 0, y := 0, w := (⟨10, 7⟩ : Texture).w, h := (⟨10, 7⟩ : Texture).h }) ∧
      (∀ (i j : Nat) (a b : SDL_Rect), i ≠ j → clips[i]? = some a → clips[j]? = some b →
        OutsideCollided a b = false) :=
  ⟨by decide, Cut_tiles ⟨10, 7⟩ 2 3 (by decide) (by decide) (by decide) (by decide)⟩

end SDL
